import Mathlib

/-!
Verification development for the Nexus research-agent repository.

The Python sources under `src/` are shallowly embedded: pure string and list
manipulation becomes structural Lean functions over `List Char` / `List String`;
Python dicts become association lists with insert-or-update semantics; external
collaborators (the reasoning model, the ArXiv/Brave/Pinecone backends, HTTP
fetches) become explicit function parameters, matching the mocked-collaborator
testing contract the repository itself uses.
-/

namespace Nexus

/-! ### Python string primitives, embedded structurally -/

/-- Whitespace characters stripped by Python `str.strip()`. -/
def pyWS (c : Char) : Bool :=
  c == ' ' || c == '\t' || c == '\n' || c == '\r' || c == '\x0b' || c == '\x0c'

/-- Tests whether `l2` begins with `l1`. -/
def isPrefixL : List Char → List Char → Bool
  | [], _ => true
  | _ :: _, [] => false
  | p :: ps, c :: cs => p == c && isPrefixL ps cs

/-- Substring search: does `pat` occur in the list? (`pat in s` in Python). -/
def containsSubL (pat : List Char) : List Char → Bool
  | [] => isPrefixL pat []
  | c :: cs => isPrefixL pat (c :: cs) || containsSubL pat cs

/-- Python `pat in s`. -/
def strContains (s pat : String) : Bool := containsSubL pat.toList s.toList

/-- Python `s.startswith(p)`. -/
def startsWithB (s p : String) : Bool := isPrefixL p.toList s.toList

/-- Strip leading and trailing Python whitespace from a char list. -/
def trimL (cs : List Char) : List Char :=
  ((cs.dropWhile pyWS).reverse.dropWhile pyWS).reverse

/-- Python `s.strip()`. -/
def pyTrim (s : String) : String := String.mk (trimL s.toList)

/-- ASCII lower-casing of one character (Python `str.lower` on the inputs used). -/
def lowerChar (c : Char) : Char :=
  if 65 ≤ c.toNat && c.toNat ≤ 90 then Char.ofNat (c.toNat + 32) else c

/-- Python `s.lower()`. -/
def pyLower (s : String) : String := String.mk (s.toList.map lowerChar)

/-- Python `s.split(sep)` for a one-character separator: keeps empty segments. -/
def charSplit (sep : Char) : List Char → List (List Char)
  | [] => [[]]
  | c :: rest =>
    let r := charSplit sep rest
    if c == sep then [] :: r
    else
      match r with
      | h :: t => (c :: h) :: t
      | [] => [[c]]

/-- Python `s.split(sep)` for a one-character separator, on strings. -/
def splitChar (s : String) (sep : Char) : List String :=
  (charSplit sep s.toList).map String.mk

/-- Join with a separator (used to model `s.split(sep, 1)[1]`). -/
def joinWith (sep : String) : List String → String
  | [] => ""
  | [x] => x
  | x :: xs => x ++ sep ++ joinWith sep xs

/-- Python `line.split(":", 1)[1]`: everything after the first colon.
All call sites in the source guard with `line.startswith("XXX:")`, so a colon
is always present; we return `""` in the impossible colon-free case. -/
def afterColon (line : String) : String :=
  match splitChar line ':' with
  | [] => ""
  | [_] => ""
  | _ :: rest => joinWith ":" rest

/-- Python `s.split(pat)` for a multi-character pattern (structural, with fuel). -/
def splitOnSubGo (fuel : Nat) (pat : List Char) (cs : List Char) (cur : List Char) :
    List (List Char) :=
  match fuel with
  | 0 => [cur.reverse]
  | fuel + 1 =>
    match cs with
    | [] => [cur.reverse]
    | c :: rest =>
      if isPrefixL pat (c :: rest) && pat ≠ [] then
        cur.reverse :: splitOnSubGo fuel pat ((c :: rest).drop pat.length) []
      else
        splitOnSubGo fuel pat rest (c :: cur)

/-- Python `s.split(pat)` for a multi-character pattern. -/
def splitOnSub (s pat : String) : List String :=
  (splitOnSubGo (s.toList.length + 1) pat.toList s.toList []).map String.mk

/-- Python `s.replace(pat, rep)` (replace all occurrences). -/
def replaceAll (s pat rep : String) : String :=
  joinWith rep (splitOnSub s pat)

/-- Take the first `n` characters (Python `s[:n]`). -/
def strTake (s : String) (n : Nat) : String := String.mk (s.toList.take n)

/-- Character count (Python `len(s)`). -/
def strLen (s : String) : Nat := s.toList.length

/-- Digits of a natural number (structural, fuel on the number of digits). -/
def natStrGo (fuel n : Nat) (acc : List Char) : List Char :=
  match fuel with
  | 0 => acc
  | fuel + 1 =>
    if n == 0 then acc
    else natStrGo fuel (n / 10) (Char.ofNat (48 + n % 10) :: acc)

/-- Decimal rendering of a natural number (Python `str(n)`). -/
def natStr (n : Nat) : String :=
  if n == 0 then "0" else String.mk (natStrGo (n + 1) n [])

/-- Decimal rendering of an integer. -/
def intStr (n : Int) : String :=
  if n < 0 then "-" ++ natStr n.natAbs else natStr n.natAbs

/-- A single-quote character as a string (used in literal Python messages). -/
def squote : String := String.mk [Char.ofNat 39]

/-- Python `x or default` for an optional string (`None` and `""` are falsy). -/
def orDefault (o : Option String) (dflt : String) : String :=
  match o with
  | some s => if s ≠ "" then s else dflt
  | none => dflt

/-! ### Association lists modelling Python dicts (string-valued) -/

/-- Python `k in d`. -/
def dictHas (d : List (String × String)) (k : String) : Bool :=
  d.any (fun p => p.1 == k)

/-- Python `d.get(k)`. -/
def dictGet? (d : List (String × String)) (k : String) : Option String :=
  (d.find? (fun p => p.1 == k)).map (fun p => p.2)

/-- Python `d.get(k, dflt)`. -/
def dictGetD (d : List (String × String)) (k : String) (dflt : String) : String :=
  (dictGet? d k).getD dflt

/-- Python `d[k] = v`: update in place if present, else append (insertion order). -/
def dictInsert (d : List (String × String)) (k v : String) : List (String × String) :=
  if dictHas d k then d.map (fun p => if p.1 == k then (k, v) else p)
  else d ++ [(k, v)]

/-! ### Calculator tool (`src/tools/calculator_tool.py`) -/

/-- Characters allowed by the regex in `CalculatorTool._is_safe_expression`. -/
def allowedChar (c : Char) : Bool :=
  c.isDigit || c == '+' || c == '-' || c == '*' || c == '/' ||
  c == '.' || c == '(' || c == ')' || c == ' ' || c == '\t'

/-- A full regex match of one or more allowed characters, as
`CalculatorTool._is_safe_expression` checks it; the Python `$` anchor also
matches just before one trailing newline, which we model by dropping a final `'\n'`. -/
def regexFullMatch (s : String) : Bool :=
  let cs := s.toList
  let cs := if cs.getLast? == some '\n' then cs.dropLast else cs
  !cs.isEmpty && cs.all allowedChar

/-- The blacklist from `CalculatorTool._is_safe_expression`. -/
def dangerous_patterns : List String :=
  ["__", "import", "exec", "eval", "open", "file",
   "input", "raw_input", "compile", "globals", "locals"]

/-- Embeds `CalculatorTool._is_safe_expression`. -/
def is_safe_expression (expression : String) : Bool :=
  if !regexFullMatch expression then false
  else dangerous_patterns.all (fun p => !strContains (pyLower expression) p)

/-- A Python number produced by evaluating an arithmetic expression, kept as an
unreduced fraction (numerator, denominator); the evaluator maintains a nonzero
denominator. -/
structure PyNum where
  num : Int
  den : Int
deriving DecidableEq

/-- Failure modes of the evaluation: `ZeroDivisionError` vs. everything else
(Python reports malformed input as `SyntaxError`, caught by the generic
`except`). -/
inductive CalcErr where
  | divZero
  | malformed
deriving DecidableEq

/-- Tokens of the restricted arithmetic language. -/
inductive Tok where
  | num (v : PyNum)
  | add | sub | mul | div | lp | rp
deriving DecidableEq

/-- Numeric value of a digit list. -/
def digitsToNat (ds : List Char) : Nat :=
  ds.foldl (fun a c => a * 10 + (c.toNat - 48)) 0

/-- Value of `ds . fs` as a fraction. -/
def mkDec (ds fs : List Char) : PyNum :=
  ⟨(digitsToNat ds * 10 ^ fs.length + digitsToNat fs : Nat), (10 ^ fs.length : Nat)⟩

/-- Tokenizer for expressions over the allowed character set of the calculator.
Models the lexical part of Python `eval` on that charset; `none` = malformed. -/
def tokenizeGo (fuel : Nat) (cs : List Char) : Option (List Tok) :=
  match fuel with
  | 0 => none
  | fuel + 1 =>
    match cs with
    | [] => some []
    | c :: rest =>
      if c == ' ' || c == '\t' then tokenizeGo fuel rest
      else if c.isDigit then
        let ds := (c :: rest).takeWhile Char.isDigit
        let rest2 := (c :: rest).dropWhile Char.isDigit
        match rest2 with
        | '.' :: r3 =>
          let fs := r3.takeWhile Char.isDigit
          let r4 := r3.dropWhile Char.isDigit
          (tokenizeGo fuel r4).map (Tok.num (mkDec ds fs) :: ·)
        | _ => (tokenizeGo fuel rest2).map (Tok.num ⟨(digitsToNat ds : Nat), 1⟩ :: ·)
      else if c == '.' then
        let fs := rest.takeWhile Char.isDigit
        let r2 := rest.dropWhile Char.isDigit
        if fs.isEmpty then none
        else (tokenizeGo fuel r2).map (Tok.num (mkDec [] fs) :: ·)
      else if c == '+' then (tokenizeGo fuel rest).map (Tok.add :: ·)
      else if c == '-' then (tokenizeGo fuel rest).map (Tok.sub :: ·)
      else if c == '*' then (tokenizeGo fuel rest).map (Tok.mul :: ·)
      else if c == '/' then (tokenizeGo fuel rest).map (Tok.div :: ·)
      else if c == '(' then (tokenizeGo fuel rest).map (Tok.lp :: ·)
      else if c == ')' then (tokenizeGo fuel rest).map (Tok.rp :: ·)
      else none

def pyNeg (a : PyNum) : PyNum := ⟨-a.num, a.den⟩
def pyAdd (a b : PyNum) : PyNum := ⟨a.num * b.den + b.num * a.den, a.den * b.den⟩
def pySub (a b : PyNum) : PyNum := ⟨a.num * b.den - b.num * a.den, a.den * b.den⟩
def pyMul (a b : PyNum) : PyNum := ⟨a.num * b.num, a.den * b.den⟩

/-- Python true division; raises `ZeroDivisionError` on a zero divisor. -/
def pyDiv (a b : PyNum) : Except CalcErr PyNum :=
  if b.num = 0 then .error .divZero else .ok ⟨a.num * b.den, a.den * b.num⟩

mutual

/-- Grammar rule: a factor is a sign applied to a factor, a number, or a parenthesized expression. -/
def parseFactor (fuel : Nat) (ts : List Tok) : Except CalcErr (PyNum × List Tok) :=
  match fuel with
  | 0 => .error .malformed
  | fuel + 1 =>
    match ts with
    | Tok.num v :: r => .ok (v, r)
    | Tok.sub :: r => (parseFactor fuel r).map (fun p => (pyNeg p.1, p.2))
    | Tok.add :: r => parseFactor fuel r
    | Tok.lp :: r =>
      match parseExprP fuel r with
      | .error e => .error e
      | .ok (v, Tok.rp :: r2) => .ok (v, r2)
      | .ok _ => .error .malformed
    | _ => .error .malformed

/-- Grammar rule: a term is a factor followed by products and quotients, evaluated left to right. -/
def parseTermLoop (fuel : Nat) (acc : PyNum) (ts : List Tok) :
    Except CalcErr (PyNum × List Tok) :=
  match fuel with
  | 0 => .error .malformed
  | fuel + 1 =>
    match ts with
    | Tok.mul :: r =>
      match parseFactor fuel r with
      | .error e => .error e
      | .ok (v, r2) => parseTermLoop fuel (pyMul acc v) r2
    | Tok.div :: r =>
      match parseFactor fuel r with
      | .error e => .error e
      | .ok (v, r2) =>
        match pyDiv acc v with
        | .error e => .error e
        | .ok q => parseTermLoop fuel q r2
    | _ => .ok (acc, ts)

def parseTerm (fuel : Nat) (ts : List Tok) : Except CalcErr (PyNum × List Tok) :=
  match fuel with
  | 0 => .error .malformed
  | fuel + 1 =>
    match parseFactor fuel ts with
    | .error e => .error e
    | .ok (v, r) => parseTermLoop fuel v r

/-- Grammar rule: an expression is a term followed by sums and differences. -/
def parseExprLoop (fuel : Nat) (acc : PyNum) (ts : List Tok) :
    Except CalcErr (PyNum × List Tok) :=
  match fuel with
  | 0 => .error .malformed
  | fuel + 1 =>
    match ts with
    | Tok.add :: r =>
      match parseTerm fuel r with
      | .error e => .error e
      | .ok (v, r2) => parseExprLoop fuel (pyAdd acc v) r2
    | Tok.sub :: r =>
      match parseTerm fuel r with
      | .error e => .error e
      | .ok (v, r2) => parseExprLoop fuel (pySub acc v) r2
    | _ => .ok (acc, ts)

def parseExprP (fuel : Nat) (ts : List Tok) : Except CalcErr (PyNum × List Tok) :=
  match fuel with
  | 0 => .error .malformed
  | fuel + 1 =>
    match parseTerm fuel ts with
    | .error e => .error e
    | .ok (v, r) => parseExprLoop fuel v r

end

/-- Models Python `eval` restricted to the allowed character set of the calculator:
arithmetic over exact fractions with `+`, `-`, unary sign, `*`, true division
`/`, parentheses and decimal literals. Division by zero is `divZero`;
everything else (including `**`, `//` and literal quirks, which no claim
depends on) is `malformed`. Evaluation is interleaved with parsing, so on
inputs that are both malformed and divide by zero the reported kind may differ
from CPython; no claim depends on such inputs. -/
def evalArith (s : String) : Except CalcErr PyNum :=
  match tokenizeGo (s.toList.length + 1) s.toList with
  | none => .error .malformed
  | some ts =>
    match parseExprP (2 * ts.length + 8) ts with
    | .ok (v, []) => .ok v
    | .ok _ => .error .malformed
    | .error e => .error e

/-- Display form of a number (abstracts the Python numeric `repr`; used only
inside the human-readable success message, which no claim inspects). -/
def renderNum (v : PyNum) : String :=
  if v.den = 1 then intStr v.num else intStr v.num ++ "/" ++ intStr v.den

/-- The dict returned by `CalculatorTool.execute`. -/
structure CalcResult where
  success : Bool
  message : String
  result : Option PyNum
deriving DecidableEq

/-- Embeds `CalculatorTool.execute`. The `ValueError` branch of the source is
unreachable for the modelled evaluator; the generic `except` branch carries
the malformed-input message. -/
def calc_execute (expression : String) : CalcResult :=
  let expression := pyTrim expression
  if !is_safe_expression expression then
    ⟨false,
     "Invalid characters in expression. Only numbers and basic operators (+, -, *, /, parentheses) are allowed.",
     none⟩
  else
    match evalArith expression with
    | .ok v =>
      ⟨true, "Calculation completed: " ++ expression ++ " = " ++ renderNum v, some v⟩
    | .error .divZero => ⟨false, "Error: Division by zero", none⟩
    | .error .malformed => ⟨false, "Error in calculation: invalid syntax", none⟩

/-- The antecedent of the claim for the safety half of the arithmetic contract: the
expression contains a character outside `0-9+-*/.() \t`, or contains a
blacklisted token (checked case-insensitively, as the source does). -/
def badExprCond (s : String) : Bool :=
  !(s.toList.all allowedChar) ||
  dangerous_patterns.any (fun p => strContains (pyLower s) p)

/-! ### Tool registry (`src/agent/tool_manager.py`) -/

/-- A result item as the agent inspects it: the agent reads `title`, `authors`,
`url` and `content` with presence checks (`in`-guards), so each field is
optional. -/
structure AgentItem where
  title : Option String
  authors : Option String
  url : Option String
  content : Option String
deriving DecidableEq

/-- A provenance record; the agent never inspects its contents, only
concatenates the lists, so a generic field map suffices. -/
structure AgentMeta where
  fields : List (String × String)
deriving DecidableEq

/-- The normalized Tool Result dict as seen by the agent. Python dict keys
that may be absent (`result`, `results`, `metadata`) are represented with
`none` / `[]`; all agent-side reads are `.get(key, dflt)` or `in`-guarded
loops, for which an absent key and the default are interchangeable.
`result` holds the calculator scalar in rendered form (only ever displayed). -/
structure AgentToolResult where
  success : Bool
  message : String
  tool_name : String
  result : Option String
  results : List AgentItem
  metadata : List AgentMeta
deriving DecidableEq

/-- A registered tool, with its `execute` mocked: `execPlain` is
`tool.execute(query)` (the calculator call shape) and `execWithMax` is
`tool.execute(query, max_results=n)`. -/
structure MTool where
  execPlain : String → AgentToolResult
  execWithMax : String → Nat → AgentToolResult

/-- Embeds `ToolManager`: the `self.tools` dict (name → tool, insertion order). -/
structure ToolManager where
  tools : List (String × MTool)

/-- Embeds `ToolManager.get_available_tools`. -/
def get_available_tools (mgr : ToolManager) : List String :=
  mgr.tools.map (fun p => p.1)

/-- Embeds `ToolManager.is_tool_available`. -/
def is_tool_available (mgr : ToolManager) (tool_name : String) : Bool :=
  mgr.tools.any (fun p => p.1 == tool_name)

/-- The Python rendering of `list(self.tools.keys())` in the failure message. -/
def reprNames (names : List String) : String :=
  "[" ++ joinWith ", " (names.map (fun n => squote ++ n ++ squote)) ++ "]"

/-- Embeds `ToolManager.execute_tool`. On an unknown name it returns the failure dict
(the Python `try`/`except` around the tool call catches any exception; our
mocked tools are total functions, so that branch is unreachable here). -/
def execute_tool (mgr : ToolManager) (tool_name query : String) : AgentToolResult :=
  match mgr.tools.find? (fun p => p.1 == tool_name) with
  | none =>
    { success := false
      message := "Tool " ++ squote ++ tool_name ++ squote ++
        " not available. Available tools: " ++ reprNames (get_available_tools mgr)
      tool_name := tool_name
      result := none, results := [], metadata := [] }
  | some p =>
    let result :=
      if tool_name == "calculator" then p.2.execPlain query
      else p.2.execWithMax query 5
    { result with tool_name := tool_name }

/-- Outcome of constructing one tool class in a given environment: the tool
name together with its `_check_availability()` result. -/
structure ToolInitSpec where
  name : String
  available : Bool
deriving DecidableEq

/-- Embeds `ToolManager._initialize_tools`: construct each class in order; a raising
constructor (`Except.error`) is caught and skipped; a constructed tool is
registered iff `tool.is_available()`. Returns the registered names in order. -/
def initTools : List (Except String ToolInitSpec) → List String
  | [] => []
  | .ok t :: rest => if t.available then t.name :: initTools rest else initTools rest
  | .error _ :: rest => initTools rest

/-- The `tool_classes` list of `ToolManager._initialize_tools`, given each
outcome of each constructor in the ambient environment. The source lists exactly
`[ArxivSearchTool, BraveSearchTool, CalculatorTool, PineconeSearchTool]`;
`WebScraperTool` is absent. -/
def manager_tool_classes (arxiv brave calcTool pine : Except String Bool) :
    List (Except String ToolInitSpec) :=
  [arxiv.map (fun b => ⟨"arxiv_search", b⟩),
   brave.map (fun b => ⟨"brave_search", b⟩),
   calcTool.map (fun b => ⟨"calculator", b⟩),
   pine.map (fun b => ⟨"pinecone_search", b⟩)]

/-- The five tool variants implemented under `src/tools` and exported by
`src.tools.__init__` (names from `_get_name` of each class). -/
def known_tool_variants : List String :=
  ["arxiv_search", "brave_search", "calculator", "pinecone_search", "webscraper"]

/-! ### ArXiv retriever and tool (`src/retrievers/arxiv.py`, `src/tools/arxiv_tool.py`) -/

/-- A document as returned by the `ArxivLoader` collaborator: the metadata
keys the code reads (`Title`, `entry_id`, `Authors`, `Published`), each
optional, plus the page content. -/
structure ADoc where
  title : Option String
  entry_id : Option String
  authors : Option String
  published : Option String
  page_content : String
deriving DecidableEq

/-- First 200 characters of the document content (`doc.page_content[:200]`). -/
def take200 (s : String) : String := strTake s 200

/-- Python truthiness of the `Title` metadata value, defaulting to empty. -/
def aTitleKey (d : ADoc) : String := d.title.getD ""

/-- The deduplication loop of `ArxivRetriever.retrieve`: keep a titled document
iff its title is unseen; keep an untitled document iff no already-kept document
shares its first 200 content characters. -/
def arxivDedupGo : List ADoc → List ADoc → List String → List ADoc
  | [], kept, _ => kept
  | d :: rest, kept, seen =>
    let t := aTitleKey d
    if t ≠ "" && !seen.any (fun x => x == t) then
      arxivDedupGo rest (kept ++ [d]) (seen ++ [t])
    else if t == "" then
      if kept.any (fun e => take200 e.page_content == take200 d.page_content) then
        arxivDedupGo rest kept seen
      else
        arxivDedupGo rest (kept ++ [d]) seen
    else
      arxivDedupGo rest kept seen

/-- ArXiv-id extraction from `entry_id` in `ArxivRetriever.retrieve`. -/
def arxivExtractId (entry_id : String) : String :=
  if strContains entry_id "arxiv.org" then
    let afterAbs := (splitOnSub entry_id "/abs/").getLastD ""
    (splitChar afterAbs 'v').headD ""
  else if entry_id ≠ "" then (splitChar entry_id '/').getLastD ""
  else ""

/-- One entry of `paper_metadata` built by `ArxivRetriever.retrieve`. -/
structure ArxivMeta where
  title : String
  arxiv_id : String
  authors : String
  published : String
  url : String
  source : String
deriving DecidableEq

def arxivBuildMeta (d : ADoc) : ArxivMeta :=
  let entry_id := d.entry_id.getD ""
  let aid := arxivExtractId entry_id
  { title := d.title.getD "Unknown"
    arxiv_id := aid
    authors := d.authors.getD "Unknown"
    published := d.published.getD "Unknown"
    url := if aid ≠ "" then "https://arxiv.org/abs/" ++ aid else ""
    source := "arxiv" }

/-- Embeds `ArxivRetriever.retrieve`, with the output of the `ArxivLoader`
collaborator passed in as `docs` (the `max_docs` argument only parameterizes the loader). -/
def arxiv_retrieve (docs : List ADoc) : List ADoc × List ArxivMeta :=
  if docs.isEmpty then ([], [])
  else
    let kept := arxivDedupGo docs [] []
    (kept, kept.map arxivBuildMeta)

/-- One item of the `results` list built by `ArxivSearchTool.execute`. -/
structure ArxivItem where
  title : String
  authors : String
  url : String
  published : String
  content : String
  source : String
deriving DecidableEq

/-- The dict returned by `ArxivSearchTool.execute`. -/
structure ArxivToolResult where
  success : Bool
  message : String
  results : List ArxivItem
  metadata : List ArxivMeta
deriving DecidableEq

/-- Embeds `ArxivSearchTool._truncate_content` (and the identical helpers of the
Brave and Pinecone tools). -/
def truncate_content (content : String) (max_length : Nat) : String :=
  if strLen content ≤ max_length then content
  else strTake content max_length ++ "..."

/-- Embeds `ArxivSearchTool.execute` (retriever output mocked as `docs`). -/
def arxiv_execute (available : Bool) (docs : List ADoc) : ArxivToolResult :=
  if !available then ⟨false, "ArXiv search not available", [], []⟩
  else
    let r := arxiv_retrieve docs
    if r.1.isEmpty then ⟨false, "No ArXiv papers found", [], []⟩
    else
      let results := (r.1.zip r.2).map (fun p =>
        ⟨p.2.title, p.2.authors, p.2.url, p.2.published,
         truncate_content p.1.page_content 800, p.2.source⟩)
      ⟨true, "Found " ++ natStr results.length ++ " ArXiv papers", results, r.2⟩

/-! ### Pinecone retriever and tool (`src/retrievers/pinecone.py`, `src/tools/pinecone_tool.py`) -/

/-- A document from the vector store: page content plus a string-valued
metadata dict (`title`, `source`, `authors`, `published`, ...). -/
structure PDoc where
  page_content : String
  meta : List (String × String)
deriving DecidableEq

/-- One entry of `paper_metadata` built by `PineconeRetriever.retrieve`;
`Score` abstracts the similarity score (a Python float compared only with
`>=`, so any linear order is a faithful model). -/
structure PineconeMeta (Score : Type) where
  title : String
  arxiv_id : String
  authors : String
  published : String
  url : String
  source : String
  confidence_score : Score
deriving DecidableEq

/-- The `unique_papers` dict construction of `PineconeRetriever.retrieve`:
first occurrence of each `title` key wins, insertion order preserved; docs
without a `title` metadata key contribute nothing. -/
def uniquePapersGo {Score : Type} :
    List (PDoc × Score) → List (String × List (String × String) × Score) →
    List (String × List (String × String) × Score)
  | [], acc => acc
  | (d, s) :: rest, acc =>
    match dictGet? d.meta "title" with
    | some t =>
      if acc.any (fun e => e.1 == t) then uniquePapersGo rest acc
      else uniquePapersGo rest (acc ++ [(t, d.meta, s)])
    | none => uniquePapersGo rest acc

/-- Metadata-record construction inside `PineconeRetriever.retrieve`. -/
def pineconeBuildMeta {Score : Type} (t : String) (md : List (String × String))
    (s : Score) : PineconeMeta Score :=
  let src := dictGetD md "source" ""
  let arxiv_id :=
    if dictHas md "source" && strContains src "arxiv.org" then
      replaceAll ((splitChar src '/').getLastD "") ".pdf" ""
    else ""
  { title := t
    arxiv_id := arxiv_id
    authors := dictGetD md "authors" "Unknown"
    published := dictGetD md "published" "Unknown"
    url := if arxiv_id ≠ "" then "https://arxiv.org/abs/" ++ arxiv_id else src
    source := "pinecone"
    confidence_score := s }

/-- Embeds `PineconeRetriever.retrieve`, with the output of the vector-store
call `similarity_search_with_score` mocked as `hits` and the configured
`CONFIDENCE_THRESHOLD` passed as `threshold` (default 0.8 in the source). -/
def pinecone_retrieve {Score : Type} [LinearOrder Score]
    (hits : List (PDoc × Score)) (threshold : Score) (max_docs : Nat) :
    List PDoc × List (PineconeMeta Score) :=
  if hits.isEmpty then ([], [])
  else
    let high := hits.filter (fun p => threshold ≤ p.2)
    if high.isEmpty then ([], [])
    else
      let documents := high.map (fun p => p.1)
      let uniq := uniquePapersGo high []
      let paper_metadata := (uniq.take max_docs).map
        (fun e => pineconeBuildMeta e.1 e.2.1 e.2.2)
      (documents, paper_metadata)

/-- One item of the `results` list built by `PineconeSearchTool.execute`.
Its `score` field is `meta.get("score", 0.0)`, and the metadata dict has no
`"score"` key (the similarity lives under `"confidence_score"`), so the field
is always the default `0.0`, modelled by `Zero Score`. -/
structure PineconeItem (Score : Type) where
  title : String
  content : String
  source : String
  score : Score
deriving DecidableEq

/-- The dict returned by `PineconeSearchTool.execute`. -/
structure PineconeToolResult (Score : Type) where
  success : Bool
  message : String
  results : List (PineconeItem Score)
  metadata : List (PineconeMeta Score)
deriving DecidableEq

/-- Embeds `PineconeSearchTool.execute`. -/
def pinecone_execute {Score : Type} [LinearOrder Score] [Zero Score]
    (available : Bool) (hits : List (PDoc × Score)) (threshold : Score)
    (max_results : Nat) : PineconeToolResult Score :=
  if !available then ⟨false, "Pinecone search not available", [], []⟩
  else
    let r := pinecone_retrieve hits threshold max_results
    if r.1.isEmpty then ⟨false, "No stored documents found", [], []⟩
    else
      let results := (r.1.zip r.2).map (fun p =>
        ⟨p.2.title, truncate_content p.1.page_content 600, p.2.source, 0⟩)
      ⟨true, "Found " ++ natStr results.length ++ " stored documents", results, r.2⟩

/-! ### Web scraper tool (`src/tools/webscraper_tool.py`) -/

/-- Separator class of the URL-splitting regex: commas and whitespace
(runs are collapsed by `+`; our single-char split leaves extra empty segments,
which the URL filter below discards, so the parsed URL list is unchanged). -/
def wsSep (c : Char) : Bool := c == ',' || pyWS c

/-- Split a char list at every separator character. -/
def splitSepsGo : List Char → List Char → List (List Char)
  | [], cur => [cur.reverse]
  | c :: cs, cur =>
    if wsSep c then cur.reverse :: splitSepsGo cs []
    else splitSepsGo cs (c :: cur)

/-- Python `s.strip(c)` for a single strip character. -/
def stripCharL (c : Char) (cs : List Char) : List Char :=
  ((cs.dropWhile (fun x => x == c)).reverse.dropWhile (fun x => x == c)).reverse

/-- Drops a trailing run of double quotes, single quotes and commas, as the
trailing `re.sub` cleanup in `_parse_urls` does. -/
def dropTrailingQuotes (cs : List Char) : List Char :=
  (cs.reverse.dropWhile (fun x => x == '"' || x == Char.ofNat 39 || x == ',')).reverse

/-- The per-part cleanup in `WebScraperTool._parse_urls`. -/
def cleanPart (part : String) : String :=
  String.mk (dropTrailingQuotes (stripCharL ','
    (stripCharL (Char.ofNat 39) (stripCharL '"' (trimL part.toList)))))

/-- Embeds `WebScraperTool._is_valid_url`, the Python match of the regex
anchored scheme pattern (one char outside whitespace and the set slash,
dollar, dot, question mark, hash; then any char; then non-whitespace). After the scheme there must
be one character outside `\s/$.?#`, one character other than a newline, and
then non-whitespace characters up to the end (with `$` tolerating one final
newline). -/
def is_valid_url (url : String) : Bool :=
  let cs := url.toList
  let cs := if cs.getLast? == some '\n' then cs.dropLast else cs
  let rest :=
    if isPrefixL "https://".toList cs then some (cs.drop 8)
    else if isPrefixL "http://".toList cs then some (cs.drop 7)
    else none
  match rest with
  | none => false
  | some r =>
    match r with
    | c1 :: c2 :: rs =>
      !(c1.isWhitespace || c1 == '/' || c1 == '$' || c1 == '.' || c1 == '?' || c1 == '#') &&
      c2 ≠ '\n' && rs.all (fun c => !c.isWhitespace)
    | _ => false

/-- Embeds `WebScraperTool._parse_urls`. -/
def parse_urls (query : String) : List String :=
  let parts := (splitSepsGo (trimL query.toList) []).map String.mk
  parts.foldl (fun urls part =>
    let part := cleanPart (pyTrim part)
    if startsWithB part "http://" || startsWithB part "https://" then
      if is_valid_url part then urls ++ [part] else urls
    else if part.toList.contains '.' && !startsWithB part "." then
      let candidate := "https://" ++ part
      if is_valid_url candidate then urls ++ [candidate] else urls
    else urls) []

/-- The dict returned by a successful `WebScraperTool._scrape_url` (the fields
`execute` reads: `title` and `text`). -/
structure Scraped where
  title : String
  text : String
deriving DecidableEq

/-- An exception raised by `_scrape_url`: Python type name and `str(e)`. -/
structure ScrapeExn where
  ename : String
  emsg : String
deriving DecidableEq

/-- One item of the webscraper `results` list. -/
structure WItem where
  title : String
  url : String
  content : String
  source : String
deriving DecidableEq

/-- One record of the webscraper `metadata` list (failure records carry the
`error`/`error_type` keys; success records do not). -/
structure WMeta where
  title : String
  url : String
  source : String
  content_type : String
  char_count : Nat
  content : String
  error : Option String
  error_type : Option String
  success : Bool
deriving DecidableEq

/-- The dict returned by `WebScraperTool.execute`. -/
structure WToolResult where
  success : Bool
  message : String
  results : List WItem
  metadata : List WMeta
deriving DecidableEq

/-- The error-message categorization in the `except` block of `WebScraperTool.execute`. -/
def helpfulMsg (e : ScrapeExn) : String :=
  let m := e.emsg
  let ml := pyLower m
  if strContains ml "timeout" then "Request timeout - site may be slow or blocking requests"
  else if strContains m "403" || strContains ml "forbidden" then "Access forbidden - site may be blocking scrapers"
  else if strContains m "404" then "Page not found"
  else if strContains ml "connection" then "Connection failed - site may be down or unreachable"
  else if strContains ml "ssl" || strContains ml "certificate" then "SSL/Certificate error"
  else m

/-- Computes `urlparse(url).netloc` for the `http(s)` URLs this tool produces. -/
def netloc (url : String) : String :=
  let cs := url.toList
  let rest :=
    if isPrefixL "https://".toList cs then cs.drop 8
    else if isPrefixL "http://".toList cs then cs.drop 7
    else []
  String.mk (rest.takeWhile (fun c => c ≠ '/' && c ≠ '?' && c ≠ '#'))

/-- The per-URL loop of `WebScraperTool.execute`: a successful scrape appends
to both `results` and `metadata`; an exception appends a failure record to
`metadata` only. (`_scrape_url` returns a non-empty dict or raises, so the
falsy-content branch of the source is unreachable.) -/
def scrapeLoop (fetch : String → Except ScrapeExn Scraped) :
    List String → List WItem × List WMeta
  | [] => ([], [])
  | url :: rest =>
    let tail := scrapeLoop fetch rest
    match fetch url with
    | .ok c =>
      (⟨c.title, url, c.text, "webscraper"⟩ :: tail.1,
       ⟨strTake c.title 100, url, "webscraper", "scraped_web", strLen c.text,
        c.text, none, none, true⟩ :: tail.2)
    | .error e =>
      let hm := helpfulMsg e
      (tail.1,
       ⟨"Failed: " ++ netloc url, url, "webscraper", "scraped_web", 0,
        "Scraping failed: " ++ hm, some hm, some e.ename, false⟩ :: tail.2)

/-- Embeds `WebScraperTool.execute`, with `_scrape_url` mocked as `fetch`. -/
def webscraper_execute (available : Bool)
    (fetch : String → Except ScrapeExn Scraped) (query : String) : WToolResult :=
  if !available then
    ⟨false, "Web scraper not available - missing dependencies", [], []⟩
  else
    let urls := parse_urls query
    if urls.isEmpty then ⟨false, "No valid URLs found in query", [], []⟩
    else
      let rm := scrapeLoop fetch (urls.take 3)
      let success_count := rm.1.length
      ⟨decide (success_count > 0),
       "Successfully scraped " ++ natStr success_count ++ "/" ++
         natStr urls.length ++ " URLs",
       rm.1, rm.2⟩

/-! ### Brave retriever and tool (`src/retrievers/brave.py`, `src/tools/brave_tool.py`) -/

/-- One parsed JSON object of the Brave API response (the keys
`BraveRetriever.retrieve` reads: `title`, `link`, `url`, `snippet`, each
possibly absent). -/
structure BraveHit where
  title : Option String
  link : Option String
  url : Option String
  snippet : Option String
deriving DecidableEq

/-- A `Document` built by `BraveRetriever.retrieve`: the page content plus the
metadata dict `{source, query, result_index, url}`. -/
structure BraveDoc where
  page_content : String
  source : String
  query : String
  result_index : Nat
  url : String
deriving DecidableEq

/-- One entry of `paper_metadata` built by `BraveRetriever.retrieve`. -/
structure BraveMeta where
  title : String
  url : String
  source : String
  content_type : String
  snippet : String
deriving DecidableEq

/-- The URL cleanup shared by both branches of `BraveRetriever.retrieve`
(strip, strip quotes and commas, drop a trailing quote-comma run — the same
chain as the webscraper cleanup, guarded by `if url:`). -/
def braveCleanUrl (url : String) : String :=
  if url ≠ "" then cleanPart url else url

/-- The `snippet` field of a metadata record: truncated to 200 characters with
an ellipsis when longer. -/
def braveSnippetMeta (snippet : String) : String :=
  if strLen snippet > 200 then strTake snippet 200 ++ "..." else snippet

/-- The JSON-path loop of `BraveRetriever.retrieve`: one document and one
metadata record are appended per parsed result, in lockstep; `i` is the
`enumerate` counter. -/
def braveJsonGo (query : String) : List BraveHit → Nat → List BraveDoc × List BraveMeta
  | [], _ => ([], [])
  | h :: rest, i =>
    let title := h.title.getD ("Web Result " ++ natStr (i + 1))
    let url := braveCleanUrl (h.link.getD (h.url.getD ""))
    let snippet := h.snippet.getD ""
    let content := "Title: " ++ title ++ "\nURL: " ++ url ++ "\nSnippet: " ++ snippet
    let tail := braveJsonGo query rest (i + 1)
    (⟨content, "brave_search", query, i, url⟩ :: tail.1,
     ⟨strTake title 150, url, "brave_search", "web", braveSnippetMeta snippet⟩ :: tail.2)

/-- Removes a leading `digits.whitespace` enumeration prefix from a line, as
the `re.sub` in the fallback title extraction does (no change when the line
does not start with digits followed by a dot). -/
def stripLeadingEnum (line : String) : String :=
  let cs := line.toList
  let ds := cs.takeWhile Char.isDigit
  let rest := cs.dropWhile Char.isDigit
  if ds ≠ [] then
    match rest with
    | '.' :: r2 => String.mk (r2.dropWhile pyWS)
    | _ => line
  else line

/-- The fallback title extraction of `BraveRetriever.retrieve`: the first
stripped line that is non-empty and does not start with `http`, with its
enumeration prefix removed; `none` when no line qualifies. -/
def braveFindTitle : List String → Option String
  | [] => none
  | l :: rest =>
    let l := pyTrim l
    if l ≠ "" && !startsWithB l "http" then some (stripLeadingEnum l)
    else braveFindTitle rest

/-- The character class of the URL-search regex in the fallback branch:
anything but whitespace, a single quote or a double quote. -/
def braveUrlChar (c : Char) : Bool :=
  !(pyWS c || c == Char.ofNat 39 || c == '"')

/-- Leftmost match of the scheme-anchored URL-search regex in one line: at
each position, an `https://` or `http://` prefix followed by at least one
allowed character matches greedily; otherwise the scan moves one character
right. -/
def braveSearchUrl : List Char → Option String
  | [] => none
  | c :: rest =>
    if isPrefixL "https://".toList (c :: rest) then
      let tail := ((c :: rest).drop 8).takeWhile braveUrlChar
      if tail ≠ [] then some (String.mk ("https://".toList ++ tail))
      else braveSearchUrl rest
    else if isPrefixL "http://".toList (c :: rest) then
      let tail := ((c :: rest).drop 7).takeWhile braveUrlChar
      if tail ≠ [] then some (String.mk ("http://".toList ++ tail))
      else braveSearchUrl rest
    else braveSearchUrl rest

/-- The fallback URL extraction: the first line containing a URL match wins. -/
def braveLinesUrl : List String → Option String
  | [] => none
  | l :: rest =>
    match braveSearchUrl l.toList with
    | some u => some u
    | none => braveLinesUrl rest

/-- The fallback-path loop of `BraveRetriever.retrieve`: blank entries are
skipped (skipping both lists), otherwise one document and one metadata record
are appended in lockstep. -/
def braveFallbackGo (query : String) : List String → Nat → List BraveDoc × List BraveMeta
  | [], _ => ([], [])
  | entry :: rest, i =>
    let tail := braveFallbackGo query rest (i + 1)
    if pyTrim entry == "" then tail
    else
      let lines := splitChar entry '\n'
      let title := orDefault (braveFindTitle lines) ("Web Result " ++ natStr (i + 1))
      let url :=
        match braveLinesUrl lines with
        | some u => cleanPart u
        | none => ""
      (⟨entry, "brave_search", query, i, url⟩ :: tail.1,
       ⟨strTake title 150, url, "brave_search", "web", braveSnippetMeta entry⟩ :: tail.2)

/-- Embeds `BraveRetriever.retrieve`. The raw `self.search.run(query)` text
and its two parsing attempts (`json.loads` on a bracketed response or
JSON-object extraction, then the `\n\n` / numbered-title splitting) belong to
the external web-search collaborator and the `json`/`re` libraries; they are
mocked as the resulting `parsed` (the `parsed_results` list) and `entries`
(the fallback `entries` list). The branch choice `if parsed_results:` and
everything after it are the embedded repository code. An empty API response
returns `([], [])` through the fallback of two empty lists. -/
def brave_retrieve (query : String) (parsed : List BraveHit) (entries : List String)
    (max_docs : Nat) : List BraveDoc × List BraveMeta :=
  if !parsed.isEmpty then braveJsonGo query (parsed.take max_docs) 0
  else braveFallbackGo query (entries.take max_docs) 0

/-- One item of the `results` list built by `BraveSearchTool.execute`. -/
structure BraveItem where
  title : String
  url : String
  content : String
  source : String
deriving DecidableEq

/-- The dict returned by `BraveSearchTool.execute`. -/
structure BraveToolResult where
  success : Bool
  message : String
  results : List BraveItem
  metadata : List BraveMeta
deriving DecidableEq

/-- Embeds `BraveSearchTool.execute` (retriever input mocked as
`parsed`/`entries`, as in `brave_retrieve`). -/
def brave_execute (available : Bool) (query : String) (parsed : List BraveHit)
    (entries : List String) (max_results : Nat) : BraveToolResult :=
  if !available then ⟨false, "Brave search not available", [], []⟩
  else
    let r := brave_retrieve query parsed entries max_results
    if r.1.isEmpty then ⟨false, "No web results found", [], []⟩
    else
      let results := (r.1.zip r.2).map (fun p =>
        ⟨p.2.title, p.2.url, truncate_content p.1.page_content 500, p.2.source⟩)
      ⟨true, "Found " ++ natStr results.length ++ " web results", results, r.2⟩

/-! ### Research agent (`src/agent/research_agent.py`) -/

/-- One Progress Step (`{"status": ..., "message": ...}`). -/
structure Step where
  status : String
  message : String
deriving DecidableEq

/-- The mutable per-request agent state: `self._step_messages`. -/
structure AgentState where
  steps : List Step
deriving DecidableEq

/-- Embeds `ResearchAgent.add_step_message` (the log append; the optional callback is
modelled at the streaming layer as the delta of this append-only log). -/
def addStep (st : AgentState) (status message : String) : AgentState :=
  ⟨st.steps ++ [⟨status, message⟩]⟩

/-- Embeds `ResearchAgent.clear_step_messages`. -/
def clearSteps (_ : AgentState) : AgentState := ⟨[]⟩

/-- The parsed tool decision. The Python branches return dicts with different
key sets; the agent only ever reads missing keys through `.get(key, dflt)`,
so absent keys are represented by the corresponding defaults
(`tools = []`, `queries = {}`, `tool_name = None`, `query = None`,
`multi_tool = False`). -/
structure ToolDecision where
  use_tools : Bool
  multi_tool : Bool
  tools : List String
  queries : List (String × String)
  tool_name : Option String
  query : Option String
  reasoning : String
deriving DecidableEq

/-- The line loop of `ResearchAgent._parse_multi_tool_decision`, carrying the
`tools`/`queries`/`reasoning` locals. -/
def parseMultiGo : List String → Option (List String) → List (String × String) →
    Option String → Option (List String) × List (String × String) × Option String
  | [], tools, queries, reasoning => (tools, queries, reasoning)
  | line :: rest, tools, queries, reasoning =>
    if startsWithB line "MULTI_TOOL_USE:" then
      parseMultiGo rest
        (some ((splitChar (pyTrim (afterColon line)) ',').map pyTrim))
        queries reasoning
    else if startsWithB line "QUERY1:" then
      match tools with
      | some ts =>
        if !ts.isEmpty then
          parseMultiGo rest tools
            (dictInsert queries (ts.headD "") (pyTrim (afterColon line))) reasoning
        else parseMultiGo rest tools queries reasoning
      | none => parseMultiGo rest tools queries reasoning
    else if startsWithB line "QUERY2:" then
      match tools with
      | some ts =>
        if ts.length > 1 then
          parseMultiGo rest tools
            (dictInsert queries (ts.getD 1 "") (pyTrim (afterColon line))) reasoning
        else parseMultiGo rest tools queries reasoning
      | none => parseMultiGo rest tools queries reasoning
    else if startsWithB line "REASONING:" then
      parseMultiGo rest tools queries (some (pyTrim (afterColon line)))
    else
      parseMultiGo rest tools queries reasoning

/-- Embeds `ResearchAgent._parse_multi_tool_decision`. -/
def parse_multi_tool_decision (lines : List String) : ToolDecision :=
  let r := parseMultiGo lines none [] none
  { use_tools := true
    multi_tool := true
    tools := r.1.getD []
    queries := r.2.1
    tool_name := none, query := none
    reasoning := orDefault r.2.2 "Multi-tool strategy selected" }

/-- The line loop of `ResearchAgent._parse_single_tool_decision`. -/
def parseSingleGo : List String → Option String → Option String → Option String →
    Option String × Option String × Option String
  | [], tn, q, r => (tn, q, r)
  | line :: rest, tn, q, r =>
    if startsWithB line "TOOL_USE:" then
      parseSingleGo rest (some (pyTrim (afterColon line))) q r
    else if startsWithB line "QUERY:" then
      parseSingleGo rest tn (some (pyTrim (afterColon line))) r
    else if startsWithB line "REASONING:" then
      parseSingleGo rest tn q (some (pyTrim (afterColon line)))
    else parseSingleGo rest tn q r

/-- Embeds `ResearchAgent._parse_single_tool_decision`. -/
def parse_single_tool_decision (lines : List String) : ToolDecision :=
  let r := parseSingleGo lines none none none
  { use_tools := true
    multi_tool := false
    tools := [], queries := []
    tool_name := r.1
    query := r.2.1
    reasoning := orDefault r.2.2 "Single tool strategy selected" }

/-- Embeds `ResearchAgent._parse_no_tools_decision`. -/
def parse_no_tools_decision (lines : List String) : ToolDecision :=
  let r := lines.foldl (fun acc line =>
    if startsWithB line "REASONING:" then some (pyTrim (afterColon line)) else acc)
    (none : Option String)
  { use_tools := false
    multi_tool := false
    tools := [], queries := [], tool_name := none, query := none
    reasoning := orDefault r "Can answer with existing knowledge" }

/-- Embeds `ResearchAgent._parse_tool_decision` (markers are substring checks on the
whole content, in the `if`/`elif` order of the source). -/
def parse_tool_decision (content : String) : ToolDecision :=
  let lines := splitChar (pyTrim content) '\n'
  if strContains content "MULTI_TOOL_USE:" then parse_multi_tool_decision lines
  else if strContains content "TOOL_USE:" then parse_single_tool_decision lines
  else parse_no_tools_decision lines

/-- Python `str(x)` on the optional calculator scalar (`str(None) = "None"`). -/
def optStr (o : Option String) : String :=
  match o with
  | some s => s
  | none => "None"

/-- Embeds `ResearchAgent._execute_single_tool`. -/
def execute_single_tool (mgr : ToolManager) (st : AgentState)
    (tool_name query : String) : AgentState × AgentToolResult :=
  let st := addStep st "searching" ("🔍 Executing " ++ tool_name ++ ": " ++ query)
  let result := execute_tool mgr tool_name query
  let st :=
    if result.success then
      if tool_name == "calculator" then
        addStep st "found" ("✅ Calculation completed: " ++ optStr result.result)
      else
        addStep st "found" ("✅ Found " ++ natStr result.results.length ++
          " results from " ++ tool_name)
    else
      addStep st "error" ("❌ " ++ tool_name ++ " failed: " ++ result.message)
  (st, result)

/-- The multi-tool loop of `ResearchAgent._execute_tools`. -/
def executeMultiGo (mgr : ToolManager) (queries : List (String × String)) :
    List String → AgentState → AgentState × List AgentToolResult
  | [], st => (st, [])
  | t :: rest, st =>
    if dictHas queries t && is_tool_available mgr t then
      let one := execute_single_tool mgr st t (dictGetD queries t "")
      let more := executeMultiGo mgr queries rest one.1
      (more.1, one.2 :: more.2)
    else executeMultiGo mgr queries rest st

/-- Embeds `ResearchAgent._execute_tools`. -/
def execute_tools (mgr : ToolManager) (st : AgentState) (d : ToolDecision) :
    AgentState × List AgentToolResult :=
  if d.multi_tool then executeMultiGo mgr d.queries d.tools st
  else
    match d.tool_name, d.query with
    | some tn, some q =>
      if tn ≠ "" && q ≠ "" then
        let one := execute_single_tool mgr st tn q
        (one.1, [one.2])
      else (st, [])
    | _, _ => (st, [])

/-- Upper-casing (Python `str.upper` on the ASCII tool names used here). -/
def pyUpper (s : String) : String :=
  String.mk (s.toList.map (fun c =>
    if 97 ≤ c.toNat && c.toNat ≤ 122 then Char.ofNat (c.toNat - 32) else c))

/-- Formatting of the first three result items in
`ResearchAgent._format_tool_results`. -/
def formatItems (items : List AgentItem) (i : Nat) : String :=
  match items with
  | [] => ""
  | it :: rest =>
    "\nResult " ++ natStr i ++ ":\n" ++
    "Title: " ++ it.title.getD "N/A" ++ "\n" ++
    (match it.authors with
     | some a => "Authors: " ++ a ++ "\n"
     | none => "") ++
    (match it.url with
     | some u => "URL: " ++ u ++ "\n"
     | none => "") ++
    "Content: " ++ it.content.getD "N/A" ++ "\n" ++
    formatItems rest (i + 1)

/-- Embeds `ResearchAgent._format_tool_results`. -/
def format_tool_results (tool_results : List AgentToolResult) : String :=
  if tool_results.isEmpty then "No tools were used for this response."
  else
    tool_results.foldl (fun acc r =>
      if r.success then
        if r.tool_name == "calculator" then
          acc ++ "\n=== " ++ pyUpper r.tool_name ++ " RESULT ===\n" ++
          "Calculation: " ++ optStr r.result ++ "\n"
        else
          acc ++ "\n=== " ++ pyUpper r.tool_name ++ " RESULTS ===\n" ++
          formatItems (r.results.take 3) 1
      else
        acc ++ "\n=== " ++ pyUpper r.tool_name ++ " ERROR ===\n" ++
        "Error: " ++ orDefault (some r.message) "Unknown error" ++ "\n") ""

/-- Embeds `ResearchAgent._extract_context_from_results`. -/
def extract_context_from_results : List AgentToolResult → List String
  | [] => []
  | r :: rest =>
    (if r.success then r.results.filterMap (fun it => it.content) else []) ++
    extract_context_from_results rest

/-- Embeds `ResearchAgent._extract_metadata_from_results`. -/
def extract_metadata_from_results : List AgentToolResult → List AgentMeta
  | [] => []
  | r :: rest =>
    (if r.success then r.metadata else []) ++ extract_metadata_from_results rest

/-- The agent with its external collaborators mocked as deterministic
functions: `llmDecide` is the decision-prompt chain invocation on a question
(over the fixed available-tool descriptions), `llmSynth` the synthesis-prompt
chain invocation on the question and the formatted tool-results block. -/
structure Agent where
  llmDecide : String → String
  llmSynth : String → String → String
  mgr : ToolManager

/-- Embeds `ResearchAgent._decide_tool_use`. -/
def decide_tool_use (A : Agent) (st : AgentState) (q : String) :
    AgentState × ToolDecision :=
  let st := addStep st "searching" "🤔 Analyzing question and determining tool strategy..."
  (st, parse_tool_decision (A.llmDecide q))

/-- Embeds `ResearchAgent._synthesize_response`. -/
def synthesize_response (A : Agent) (st : AgentState) (q : String)
    (tool_results : List AgentToolResult) : AgentState × String :=
  let st := addStep st "synthesizing" "🧠 Synthesizing comprehensive response from all sources..."
  let response := A.llmSynth q (format_tool_results tool_results)
  let st := addStep st "completed" "✅ Response synthesized successfully!"
  (st, response)

/-- The terminal output of the orchestrator (the dict returned by `research`). -/
structure ResearchResult where
  final_response : String
  step_messages : List Step
  tool_results : List AgentToolResult
  paper_metadata : List AgentMeta
  context : List String
deriving DecidableEq

/-- Embeds `ResearchAgent.research`, returning the final agent state together with
the Research Result. -/
def research (A : Agent) (st0 : AgentState) (q : String) :
    AgentState × ResearchResult :=
  let st1 := addStep (clearSteps st0) "checking" "🚀 Starting intelligent research process..."
  let dres := decide_tool_use A st1 q
  let d := dres.2
  let ex :=
    if d.use_tools then
      execute_tools A.mgr
        (addStep dres.1 "checking" ("💭 Strategy: " ++ d.reasoning)) d
    else
      (addStep dres.1 "completed" ("✅ Using existing knowledge: " ++ d.reasoning),
       ([] : List AgentToolResult))
  let syn := synthesize_response A ex.1 q ex.2
  (syn.1,
   { final_response := syn.2
     step_messages := syn.1.steps
     tool_results := ex.2
     paper_metadata := extract_metadata_from_results ex.2
     context := extract_context_from_results ex.2 })

/-- An event yielded by `research_stream`. -/
inductive Event where
  | step (s : Step)
  | final (r : ResearchResult)
deriving DecidableEq

/-- The flush of the streaming step queue: the callback appends every new step
to `step_queue`, and each flush yields exactly the steps appended to the
(append-only) log since the previous flush. -/
def flushEvents (prev next : AgentState) : List Event :=
  (next.steps.drop prev.steps.length).map Event.step

/-- Embeds `ResearchAgent.research_stream`, as the final agent state together with
the full (finite) list of yielded events. -/
def research_stream (A : Agent) (st0 : AgentState) (q : String) :
    AgentState × List Event :=
  let stc := clearSteps st0
  let st1 := addStep stc "checking" "🚀 Starting intelligent research process..."
  let e1 := flushEvents stc st1
  let dres := decide_tool_use A st1 q
  let e2 := flushEvents st1 dres.1
  let d := dres.2
  let ex :=
    if d.use_tools then
      let stb := addStep dres.1 "checking" ("💭 Strategy: " ++ d.reasoning)
      let exr := execute_tools A.mgr stb d
      (exr.1, exr.2, flushEvents dres.1 stb ++ flushEvents stb exr.1)
    else
      let ste := addStep dres.1 "completed" ("✅ Using existing knowledge: " ++ d.reasoning)
      (ste, ([] : List AgentToolResult), flushEvents dres.1 ste)
  let syn := synthesize_response A ex.1 q ex.2.1
  let e4 := flushEvents ex.1 syn.1
  let result : ResearchResult :=
    { final_response := syn.2
      step_messages := syn.1.steps
      tool_results := ex.2.1
      paper_metadata := extract_metadata_from_results ex.2.1
      context := extract_context_from_results ex.2.1 }
  let evs := e1 ++ e2 ++ ex.2.2 ++ e4
  (syn.1, evs ++ [Event.final result])

/-! ### Concrete fixtures used to instantiate theorems on concrete inputs -/

/-- A canned successful Tool Result for a mocked tool named `n`. -/
def demoResult (n : String) : AgentToolResult :=
  ⟨true, "ok", n, none, [⟨some "T", none, none, some "c"⟩], [⟨[("title", "T")]⟩]⟩

/-- A mocked tool that always succeeds with `demoResult n`. -/
def demoTool (n : String) : MTool :=
  ⟨fun _ => demoResult n, fun _ _ => demoResult n⟩

/-- A registry with two available tools, `"a"` and `"b"`. -/
def demoMgr : ToolManager := ⟨[("a", demoTool "a"), ("b", demoTool "b")]⟩

/-- A mocked `_scrape_url`: succeeds on `http://aa.com`, raises a timeout on
every other URL. -/
def demoFetch : String → Except ScrapeExn Scraped := fun u =>
  if u == "http://aa.com" then Except.ok ⟨"A title", "hello world"⟩
  else Except.error ⟨"Timeout", "Request timeout happened"⟩

/-- An ArXiv loader document with no `Title` metadata key. -/
def docUA : ADoc := ⟨none, none, none, none, "AAAA"⟩

/-- A second untitled document with a different content prefix. -/
def docUB : ADoc := ⟨none, none, none, none, "BBBB"⟩

/-- A vector-store document titled `T1`. -/
def pdocA : PDoc := ⟨"stored content", [("title", "T1")]⟩

/-! ## Theorems -/

/-! ### Shared helper lemmas -/

lemma head?_dropWhile_not {α : Type} (p : α → Bool) :
    ∀ (l : List α) (a : α), (l.dropWhile p).head? = some a → p a = false := by
  intro l
  induction l with
  | nil => intro a h; simp [List.dropWhile] at h
  | cons c cs ih =>
    intro a h
    rw [List.dropWhile_cons] at h
    by_cases hc : p c = true
    · rw [if_pos hc] at h; exact ih a h
    · rw [if_neg hc] at h
      simp only [List.head?_cons, Option.some.injEq] at h
      subst h
      exact Bool.not_eq_true _ ▸ (by simpa using hc)

lemma trimL_getLast_ws (cs : List Char) (c : Char)
    (h : (trimL cs).getLast? = some c) : pyWS c = false := by
  unfold trimL at h
  rw [List.getLast?_reverse] at h
  exact head?_dropWhile_not pyWS _ c h

lemma zip_self_map {α β γ : Type} (f : α → β) (g : α × β → γ) :
    ∀ l : List α, ((l.zip (l.map f)).map g) = l.map (fun a => g (a, f a)) := by
  intro l
  induction l with
  | nil => rfl
  | cons a l ih => simp [List.zip_cons_cons, ih]

lemma zip_map_snd {α β γ : Type} (g : β → γ) :
    ∀ (l2 : List β) (l1 : List α), l2.length ≤ l1.length →
      ((l1.zip l2).map (fun pr => g pr.2)) = l2.map g := by
  intro l2
  induction l2 with
  | nil => intro l1 _; simp
  | cons b bs ih =>
    intro l1 hl
    cases l1 with
    | nil => simp at hl
    | cons a as =>
      simp only [List.zip_cons_cons, List.map_cons]
      rw [ih as (by simpa using hl)]

lemma str_append_ne_empty (s t : String) (h : s.data ≠ []) : s ++ t ≠ "" := by
  intro heq
  have h2 : (s ++ t).data = ("" : String).data := congrArg String.data heq
  rw [String.data_append] at h2
  have : s.data = [] := (List.append_eq_nil.mp h2).1
  exact h this

/-! ### C1: the calculator contract -/

lemma regexFullMatch_trim (e : String) :
    regexFullMatch (pyTrim e) =
      (!(trimL e.toList).isEmpty && (trimL e.toList).all allowedChar) := by
  have hlist : (pyTrim e).toList = trimL e.toList := rfl
  unfold regexFullMatch
  rw [hlist]
  have hcond : ((trimL e.toList).getLast? == some '\n') = false := by
    cases hl : (trimL e.toList).getLast? with
    | none => rfl
    | some c =>
      have hws : pyWS c = false := trimL_getLast_ws e.toList c hl
      have : c ≠ '\n' := by
        intro hc; subst hc; simp [pyWS] at hws
      simp [this]
  simp only [hcond, Bool.false_eq_true, if_false]

lemma calc_reject (e : String) (h : badExprCond (pyTrim e) = true) :
    (calc_execute e).success = false ∧ (calc_execute e).result = none := by
  have hsafe : is_safe_expression (pyTrim e) = false := by
    unfold badExprCond at h
    have hlist : (pyTrim e).toList = trimL e.toList := rfl
    rw [hlist] at h
    unfold is_safe_expression
    cases hall : (trimL e.toList).all allowedChar with
    | false =>
      have hreg : regexFullMatch (pyTrim e) = false := by
        rw [regexFullMatch_trim, hall, Bool.and_false]
      simp [hreg]
    | true =>
      rw [hall] at h
      simp only [Bool.not_true, Bool.false_or] at h
      cases hreg : regexFullMatch (pyTrim e) with
      | false => simp [hreg]
      | true =>
        simp only [hreg, Bool.not_true, Bool.false_eq_true, if_false]
        obtain ⟨p, hp, hcp⟩ := List.any_eq_true.mp h
        cases hAll2 : dangerous_patterns.all
            (fun p => !strContains (pyLower (pyTrim e)) p) with
        | false => rfl
        | true =>
          exfalso
          have := List.all_eq_true.mp hAll2 p hp
          simp [hcp] at this
  unfold calc_execute
  simp [hsafe]

/-- Claim C1 (amended): for every expression whose *stripped* form contains a
character outside `0-9+-*/.() \t` or contains a blacklisted token
(case-insensitively), `CalculatorTool.execute` returns `success = false` and
`result = None`; `execute "2+2"` succeeds with result 4; `execute "1/0"`
fails with the literal division-by-zero message. -/
theorem C1_calculator_contract :
    (∀ e : String, badExprCond (pyTrim e) = true →
      (calc_execute e).success = false ∧ (calc_execute e).result = none) ∧
    (calc_execute "2+2").success = true ∧
    (calc_execute "2+2").result = some ⟨4, 1⟩ ∧
    calc_execute "1/0" = ⟨false, "Error: Division by zero", none⟩ :=
  ⟨calc_reject, rfl, rfl, rfl⟩

/-- Witness for C1: the safety clause applies non-vacuously, e.g. to `"2+a"`. -/
theorem C1_calculator_contract_witness :
    badExprCond (pyTrim "2+a") = true ∧
    (calc_execute "2+a").success = false ∧ (calc_execute "2+a").result = none :=
  ⟨by decide, (C1_calculator_contract.1 "2+a" (by decide)).1,
   (C1_calculator_contract.1 "2+a" (by decide)).2⟩

/-- Counterexample to C1 as stated: `"2+2\n"` contains the newline character,
which is outside the allowed set, yet `execute` strips the expression first
and succeeds — so "success=false whenever the expression contains a character
outside the set" is false without the stripping proviso. -/
theorem C1_calculator_counterexample :
    ('\n' ∈ "2+2\n".toList) ∧ allowedChar '\n' = false ∧
    (calc_execute "2+2\n").success = true ∧
    (calc_execute "2+2\n").result = some ⟨4, 1⟩ :=
  ⟨by decide, by decide, rfl, rfl⟩

/-! ### C2: the streaming pipeline refines the batch pipeline -/

/-- Claim C2: for every question and fixed (mocked) collaborator behaviour,
the terminal event of `research_stream` carries a Research Result that is
field-for-field equal to the Research Result returned by `research` (the two
methods run the identical decide → execute → synthesize sequence and assemble
the same dict). -/
theorem C2_stream_refines_research (A : Agent) (st : AgentState) (q : String) :
    (research_stream A st q).2.getLast? = some (Event.final (research A st q).2) := by
  unfold research_stream research
  cases h : (parse_tool_decision (A.llmDecide q)).use_tools <;>
    simp [decide_tool_use, h, List.getLast?_concat]

/-! ### C3: registry execution on unknown or unavailable names -/

/-- Claim C3: `ToolManager.execute_tool` on a name that is not in the registry
dict (unknown, or unavailable — unavailable tools are never registered, see
`initTools`) returns a failure Tool Result with a non-empty message and the
requested `tool_name`; being a total function, it never raises. -/
theorem C3_execute_tool_unknown (mgr : ToolManager) (tool_name query : String)
    (h : mgr.tools.any (fun p => p.1 == tool_name) = false) :
    (execute_tool mgr tool_name query).success = false ∧
    (execute_tool mgr tool_name query).message ≠ "" ∧
    (execute_tool mgr tool_name query).tool_name = tool_name := by
  have hfind : mgr.tools.find? (fun p => p.1 == tool_name) = none := by
    rw [List.find?_eq_none]
    intro x hx hpx
    have hany : mgr.tools.any (fun p => p.1 == tool_name) = true :=
      List.any_eq_true.mpr ⟨x, hx, hpx⟩
    rw [h] at hany
    exact Bool.false_ne_true hany
  unfold execute_tool
  rw [hfind]
  refine ⟨rfl, ?_, rfl⟩
  exact str_append_ne_empty "Tool " _ (by decide)

/-- Witness for C3: the unknown name `"nosuch"` against the two-tool registry. -/
theorem C3_execute_tool_unknown_witness :
    (execute_tool demoMgr "nosuch" "q").success = false ∧
    (execute_tool demoMgr "nosuch" "q").message ≠ "" ∧
    (execute_tool demoMgr "nosuch" "q").tool_name = "nosuch" :=
  C3_execute_tool_unknown demoMgr "nosuch" "q" (by decide)

/-! ### C7: the registry never constructs the content-extraction tool -/

lemma initTools_mem (x : String) :
    ∀ cs : List (Except String ToolInitSpec), x ∈ initTools cs →
      ∃ t : ToolInitSpec, Except.ok t ∈ cs ∧ t.name = x ∧ t.available = true := by
  intro cs
  induction cs with
  | nil => intro h; simp [initTools] at h
  | cons c rest ih =>
    intro h
    cases c with
    | error e =>
      obtain ⟨t, ht, hn, ha⟩ := ih (by simpa [initTools] using h)
      exact ⟨t, List.mem_cons_of_mem _ ht, hn, ha⟩
    | ok t0 =>
      cases ha0 : t0.available with
      | true =>
        rw [show initTools (Except.ok t0 :: rest) = t0.name :: initTools rest by
            simp [initTools, ha0]] at h
        rcases List.mem_cons.mp h with heq | hmem
        · exact ⟨t0, List.mem_cons_self _ _, heq.symm, ha0⟩
        · obtain ⟨t, ht, hn, hA⟩ := ih hmem
          exact ⟨t, List.mem_cons_of_mem _ ht, hn, hA⟩
      | false =>
        rw [show initTools (Except.ok t0 :: rest) = initTools rest by
            simp [initTools, ha0]] at h
        obtain ⟨t, ht, hn, hA⟩ := ih h
        exact ⟨t, List.mem_cons_of_mem _ ht, hn, hA⟩

lemma except_map_ok {α β γ : Type} (f : β → γ) (e : Except α β) (t : γ)
    (h : Except.ok t = Except.map f e) : ∃ v, t = f v := by
  cases e with
  | error a => simp [Except.map] at h
  | ok v =>
    simp [Except.map] at h
    exact ⟨v, h⟩

/-- Claim C7 (code behaviour at the failing input): whatever the four
registered constructors do, `"webscraper"` never appears among the registered
tools, because `WebScraperTool` is missing from the `tool_classes` list of
`ToolManager._initialize_tools`; with every probe succeeding, exactly the four
non-webscraper variants are registered, although the repository implements and
exports five variants. -/
theorem C7_webscraper_never_registered :
    (∀ a b c p : Except String Bool,
      "webscraper" ∉ initTools (manager_tool_classes a b c p)) ∧
    initTools (manager_tool_classes (Except.ok true) (Except.ok true)
        (Except.ok true) (Except.ok true)) =
      ["arxiv_search", "brave_search", "calculator", "pinecone_search"] ∧
    "webscraper" ∈ known_tool_variants ∧ known_tool_variants.length = 5 := by
  refine ⟨?_, rfl, by decide, rfl⟩
  intro a b c p h
  obtain ⟨t, ht, hn, -⟩ := initTools_mem "webscraper" _ h
  simp only [manager_tool_classes, List.mem_cons, List.mem_singleton,
    List.not_mem_nil, or_false] at ht
  rcases ht with h1 | h1 | h1 | h1
  · obtain ⟨v, hv⟩ := except_map_ok _ a _ h1
    rw [hv] at hn
    exact absurd (show ("arxiv_search" : String) = "webscraper" from hn) (by decide)
  · obtain ⟨v, hv⟩ := except_map_ok _ b _ h1
    rw [hv] at hn
    exact absurd (show ("brave_search" : String) = "webscraper" from hn) (by decide)
  · obtain ⟨v, hv⟩ := except_map_ok _ c _ h1
    rw [hv] at hn
    exact absurd (show ("calculator" : String) = "webscraper" from hn) (by decide)
  · obtain ⟨v, hv⟩ := except_map_ok _ p _ h1
    rw [hv] at hn
    exact absurd (show ("pinecone_search" : String) = "webscraper" from hn) (by decide)

/-! ### C4: the vector-search confidence threshold -/

lemma uniquePapersGo_from {Score : Type} :
    ∀ (hits : List (PDoc × Score)) (acc : List (String × List (String × String) × Score))
      (e : String × List (String × String) × Score),
      e ∈ uniquePapersGo hits acc →
      e ∈ acc ∨ ∃ p ∈ hits, p.2 = e.2.2 := by
  intro hits
  induction hits with
  | nil => intro acc e h; exact Or.inl (by simpa [uniquePapersGo] using h)
  | cons hd rest ih =>
    intro acc e h
    obtain ⟨d, s⟩ := hd
    cases hk : dictGet? d.meta "title" with
    | none =>
      simp only [uniquePapersGo, hk] at h
      rcases ih acc e h with hacc | ⟨p, hp, hps⟩
      · exact Or.inl hacc
      · exact Or.inr ⟨p, List.mem_cons_of_mem _ hp, hps⟩
    | some t =>
      simp only [uniquePapersGo, hk] at h
      by_cases hdup : acc.any (fun x => x.1 == t) = true
      · rw [if_pos hdup] at h
        rcases ih acc e h with hacc | ⟨p, hp, hps⟩
        · exact Or.inl hacc
        · exact Or.inr ⟨p, List.mem_cons_of_mem _ hp, hps⟩
      · rw [if_neg hdup] at h
        rcases ih _ e h with hacc | ⟨p, hp, hps⟩
        · rcases List.mem_append.mp hacc with hl | hr
          · exact Or.inl hl
          · have : e = (t, d.meta, s) := by simpa using hr
            exact Or.inr ⟨(d, s), List.mem_cons_self _ _, by rw [this]⟩
        · exact Or.inr ⟨p, List.mem_cons_of_mem _ hp, hps⟩

lemma uniquePapersGo_length {Score : Type} :
    ∀ (hits : List (PDoc × Score)) (acc : List (String × List (String × String) × Score)),
      (uniquePapersGo hits acc).length ≤ acc.length + hits.length := by
  intro hits
  induction hits with
  | nil => intro acc; simp [uniquePapersGo]
  | cons hd rest ih =>
    intro acc
    obtain ⟨d, s⟩ := hd
    cases hk : dictGet? d.meta "title" with
    | none =>
      simp only [uniquePapersGo, hk]
      calc (uniquePapersGo rest acc).length ≤ acc.length + rest.length := ih acc
        _ ≤ acc.length + (rest.length + 1) := by omega
    | some t =>
      simp only [uniquePapersGo, hk]
      by_cases hdup : acc.any (fun x => x.1 == t) = true
      · rw [if_pos hdup]
        calc (uniquePapersGo rest acc).length ≤ acc.length + rest.length := ih acc
          _ ≤ acc.length + (rest.length + 1) := by omega
      · rw [if_neg hdup]
        calc (uniquePapersGo rest (acc ++ [(t, d.meta, s)])).length
            ≤ (acc ++ [(t, d.meta, s)]).length + rest.length := ih _
          _ = acc.length + (rest.length + 1) := by simp; omega

lemma pinecone_retrieve_meta_conf {Score : Type} [LinearOrder Score]
    (hits : List (PDoc × Score)) (threshold : Score) (k : Nat) :
    ∀ m ∈ (pinecone_retrieve hits threshold k).2, threshold ≤ m.confidence_score := by
  intro m hm
  unfold pinecone_retrieve at hm
  by_cases h0 : hits.isEmpty = true
  · rw [if_pos h0] at hm; simp at hm
  · rw [if_neg h0] at hm
    by_cases h1 : (hits.filter (fun p => threshold ≤ p.2)).isEmpty = true
    · rw [if_pos h1] at hm; simp at hm
    · rw [if_neg h1] at hm
      simp only [List.mem_map] at hm
      obtain ⟨e, he, hme⟩ := hm
      have he2 := List.mem_of_mem_take he
      rcases uniquePapersGo_from _ [] e he2 with habs | ⟨p, hp, hps⟩
      · simp at habs
      · have hpf := (List.mem_filter.mp hp).2
        have hle : threshold ≤ p.2 := by simpa using hpf
        rw [← hme]
        simp only [pineconeBuildMeta]
        rw [← hps]
        exact hle

lemma pinecone_retrieve_docs_conf {Score : Type} [LinearOrder Score]
    (hits : List (PDoc × Score)) (threshold : Score) (k : Nat) :
    ∀ d ∈ (pinecone_retrieve hits threshold k).1,
      ∃ p ∈ hits, threshold ≤ p.2 ∧ p.1 = d := by
  intro d hd
  unfold pinecone_retrieve at hd
  by_cases h0 : hits.isEmpty = true
  · rw [if_pos h0] at hd; simp at hd
  · rw [if_neg h0] at hd
    by_cases h1 : (hits.filter (fun p => threshold ≤ p.2)).isEmpty = true
    · rw [if_pos h1] at hd; simp at hd
    · rw [if_neg h1] at hd
      simp only [List.mem_map] at hd
      obtain ⟨p, hp, hpd⟩ := hd
      have hmem := (List.mem_filter.mp hp).1
      have hle : threshold ≤ p.2 := by simpa using (List.mem_filter.mp hp).2
      exact ⟨p, hmem, hle, hpd⟩

lemma pinecone_all_below {Score : Type} [LinearOrder Score]
    (hits : List (PDoc × Score)) (threshold : Score) (k : Nat)
    (h : ∀ p ∈ hits, p.2 < threshold) :
    pinecone_retrieve hits threshold k = ([], []) := by
  unfold pinecone_retrieve
  by_cases h0 : hits.isEmpty = true
  · rw [if_pos h0]
  · rw [if_neg h0]
    have hfil : hits.filter (fun p => threshold ≤ p.2) = [] := by
      rw [List.filter_eq_nil_iff]
      intro p hp
      simp only [decide_eq_true_eq]
      exact not_le.mpr (h p hp)
    rw [hfil]
    simp

/-- Claim C4: every metadata record of a `pinecone_search` result has
confidence score ≥ the configured threshold; every returned result item is
built from a raw similarity hit scoring ≥ the threshold (sub-threshold hits
are excluded entirely); and when every raw hit scores below the threshold the
tool returns `success = false` with empty results. -/
theorem C4_pinecone_threshold {Score : Type} [LinearOrder Score] [Zero Score]
    (available : Bool) (hits : List (PDoc × Score)) (threshold : Score) (k : Nat) :
    (∀ m ∈ (pinecone_execute available hits threshold k).metadata,
        threshold ≤ m.confidence_score) ∧
    (∀ it ∈ (pinecone_execute available hits threshold k).results,
        ∃ p ∈ hits, threshold ≤ p.2 ∧
          it.content = truncate_content p.1.page_content 600) ∧
    ((∀ p ∈ hits, p.2 < threshold) →
        (pinecone_execute available hits threshold k).success = false ∧
        (pinecone_execute available hits threshold k).results = []) := by
  unfold pinecone_execute
  cases available with
  | false => exact ⟨by intro m hm; simp at hm, by intro it hit; simp at hit, fun _ => ⟨rfl, rfl⟩⟩
  | true =>
    simp only [Bool.not_true, Bool.false_eq_true, if_false]
    by_cases hemp : (pinecone_retrieve hits threshold k).1.isEmpty = true
    · rw [if_pos hemp]
      exact ⟨by intro m hm; simp at hm, by intro it hit; simp at hit, fun _ => ⟨rfl, rfl⟩⟩
    · rw [if_neg hemp]
      refine ⟨pinecone_retrieve_meta_conf hits threshold k, ?_, ?_⟩
      · intro it hit
        simp only [List.mem_map] at hit
        obtain ⟨pr, hpr, hit2⟩ := hit
        have hz := List.of_mem_zip hpr
        obtain ⟨p, hp, hle, hpd⟩ := pinecone_retrieve_docs_conf hits threshold k pr.1 hz.1
        refine ⟨p, hp, hle, ?_⟩
        rw [← hit2]
        simp only [hpd]
      · intro hall
        exfalso
        have := pinecone_all_below hits threshold k hall
        rw [this] at hemp
        simp at hemp

/-- Witness for C4: a below-threshold-only query fails with empty results, and
the membership clauses apply to a concrete high-confidence hit. -/
theorem C4_pinecone_threshold_witness :
    ((pinecone_execute true [(pdocA, (1 : Nat))] 2 5).success = false ∧
      (pinecone_execute true [(pdocA, (1 : Nat))] 2 5).results = []) ∧
    (2 : Nat) ≤ (pineconeBuildMeta "T1" pdocA.meta (3 : Nat)).confidence_score :=
  ⟨(C4_pinecone_threshold true [(pdocA, (1 : Nat))] 2 5).2.2 (by decide),
   (C4_pinecone_threshold true [(pdocA, (3 : Nat))] 2 5).1
     (pineconeBuildMeta "T1" pdocA.meta 3) (by decide)⟩

/-! ### C5: academic-search deduplication -/

lemma arxivDedupGo_inv :
    ∀ (docs kept : List ADoc) (seen : List String),
      kept.Pairwise (fun d1 d2 => aTitleKey d1 ≠ "" → aTitleKey d2 ≠ "" →
        aTitleKey d1 ≠ aTitleKey d2) →
      kept.Pairwise (fun d1 d2 => aTitleKey d2 = "" →
        take200 d1.page_content ≠ take200 d2.page_content) →
      (∀ d ∈ kept, aTitleKey d ≠ "" →
        seen.any (fun x => x == aTitleKey d) = true) →
      (arxivDedupGo docs kept seen).Pairwise (fun d1 d2 =>
        aTitleKey d1 ≠ "" → aTitleKey d2 ≠ "" → aTitleKey d1 ≠ aTitleKey d2) ∧
      (arxivDedupGo docs kept seen).Pairwise (fun d1 d2 =>
        aTitleKey d2 = "" → take200 d1.page_content ≠ take200 d2.page_content) := by
  intro docs
  induction docs with
  | nil => intro kept seen h1 h2 _; exact ⟨h1, h2⟩
  | cons d rest ih =>
    intro kept seen h1 h2 h3
    by_cases hc1 : (decide (aTitleKey d ≠ "") &&
        !seen.any (fun x => x == aTitleKey d)) = true
    · rw [show arxivDedupGo (d :: rest) kept seen =
          arxivDedupGo rest (kept ++ [d]) (seen ++ [aTitleKey d]) by
        simp only [arxivDedupGo]; rw [if_pos hc1]]
      have hc1' := hc1
      rw [Bool.and_eq_true] at hc1'
      obtain ⟨hne, hns⟩ := hc1'
      have hne' : aTitleKey d ≠ "" := of_decide_eq_true hne
      have hns' : seen.any (fun x => x == aTitleKey d) = false := by
        cases hx : seen.any (fun x => x == aTitleKey d)
        · rfl
        · rw [hx] at hns; exact absurd hns (by decide)
      refine ih (kept ++ [d]) (seen ++ [aTitleKey d]) ?_ ?_ ?_
      · rw [List.pairwise_append]
        refine ⟨h1, List.pairwise_singleton _ _, ?_⟩
        intro a ha b hb
        have hbd : b = d := by simpa using hb
        subst hbd
        intro hta _ heq
        have := h3 a ha hta
        rw [heq] at this
        rw [this] at hns'
        exact absurd hns' (by decide)
      · rw [List.pairwise_append]
        refine ⟨h2, List.pairwise_singleton _ _, ?_⟩
        intro a _ b hb
        have hbd : b = d := by simpa using hb
        subst hbd
        intro hbe
        exact absurd hbe hne'
      · intro x hx htx
        rcases List.mem_append.mp hx with hxk | hxd
        · have := h3 x hxk htx
          obtain ⟨y, hy, hyx⟩ := List.any_eq_true.mp this
          exact List.any_eq_true.mpr ⟨y, List.mem_append.mpr (Or.inl hy), hyx⟩
        · have hxd' : x = d := by simpa using hxd
          subst hxd'
          exact List.any_eq_true.mpr
            ⟨aTitleKey x, List.mem_append.mpr (Or.inr (by simp)), by simp⟩
    · by_cases hc2 : (aTitleKey d == "") = true
      · by_cases hc3 : kept.any (fun e =>
            take200 e.page_content == take200 d.page_content) = true
        · rw [show arxivDedupGo (d :: rest) kept seen = arxivDedupGo rest kept seen by
            simp only [arxivDedupGo]; rw [if_neg hc1, if_pos hc2, if_pos hc3]]
          exact ih kept seen h1 h2 h3
        · rw [show arxivDedupGo (d :: rest) kept seen =
              arxivDedupGo rest (kept ++ [d]) seen by
            simp only [arxivDedupGo]; rw [if_neg hc1, if_pos hc2, if_neg hc3]]
          have hde : aTitleKey d = "" := by simpa using hc2
          refine ih (kept ++ [d]) seen ?_ ?_ ?_
          · rw [List.pairwise_append]
            refine ⟨h1, List.pairwise_singleton _ _, ?_⟩
            intro a _ b hb
            have hbd : b = d := by simpa using hb
            subst hbd
            intro _ htb
            exact absurd hde htb
          · rw [List.pairwise_append]
            refine ⟨h2, List.pairwise_singleton _ _, ?_⟩
            intro a ha b hb
            have hbd : b = d := by simpa using hb
            subst hbd
            intro _ heq
            exact hc3 (List.any_eq_true.mpr ⟨a, ha, by simp [heq]⟩)
          · intro x hx htx
            rcases List.mem_append.mp hx with hxk | hxd
            · exact h3 x hxk htx
            · have hxd' : x = d := by simpa using hxd
              subst hxd'
              exact absurd hde htx
      · rw [show arxivDedupGo (d :: rest) kept seen = arxivDedupGo rest kept seen by
          simp only [arxivDedupGo]; rw [if_neg hc1, if_neg hc2]]
        exact ih kept seen h1 h2 h3

lemma arxiv_retrieve_snd (docs : List ADoc) :
    (arxiv_retrieve docs).2 = (arxiv_retrieve docs).1.map arxivBuildMeta := by
  unfold arxiv_retrieve
  by_cases h : docs.isEmpty = true
  · rw [if_pos h]; rfl
  · rw [if_neg h]

lemma arxiv_retrieve_pairwise (docs : List ADoc) :
    ((arxiv_retrieve docs).1).Pairwise (fun d1 d2 =>
      aTitleKey d1 ≠ "" → aTitleKey d2 ≠ "" → aTitleKey d1 ≠ aTitleKey d2) ∧
    ((arxiv_retrieve docs).1).Pairwise (fun d1 d2 =>
      aTitleKey d2 = "" → take200 d1.page_content ≠ take200 d2.page_content) := by
  unfold arxiv_retrieve
  by_cases h : docs.isEmpty = true
  · rw [if_pos h]; exact ⟨List.Pairwise.nil, List.Pairwise.nil⟩
  · rw [if_neg h]
    exact arxivDedupGo_inv docs [] [] List.Pairwise.nil List.Pairwise.nil
      (by intro d hd; simp at hd)

/-- Claim C5 (amended): `arxiv_search` results never contain two items with
identical non-empty titles *except for the placeholder titles* — items whose
document lacks a `Title` are given the title `"Unknown"` (and `Title = ""`
stays `""`), and such untitled items are instead deduplicated by equality of
their first 200 content characters against every previously kept document. -/
theorem C5_arxiv_dedup_amended (available : Bool) (docs : List ADoc) :
    ((arxiv_execute available docs).results.map (fun it => it.title)).Pairwise
      (fun a b => a = b → a = "Unknown" ∨ a = "") ∧
    ((arxiv_retrieve docs).1).Pairwise (fun d1 d2 =>
      aTitleKey d2 = "" → take200 d1.page_content ≠ take200 d2.page_content) := by
  refine ⟨?_, (arxiv_retrieve_pairwise docs).2⟩
  unfold arxiv_execute
  cases available with
  | false => simp
  | true =>
    simp only [Bool.not_true, Bool.false_eq_true, if_false]
    by_cases hemp : (arxiv_retrieve docs).1.isEmpty = true
    · rw [if_pos hemp]; simp
    · rw [if_neg hemp]
      have hsnd := arxiv_retrieve_snd docs
      rw [show ((((arxiv_retrieve docs).1.zip (arxiv_retrieve docs).2).map (fun p =>
            (⟨p.2.title, p.2.authors, p.2.url, p.2.published,
              truncate_content p.1.page_content 800, p.2.source⟩ : ArxivItem))).map
            (fun it => it.title)) =
          ((arxiv_retrieve docs).1.zip (arxiv_retrieve docs).2).map
            (fun p => p.2.title) by rw [List.map_map]; rfl]
      rw [hsnd, zip_self_map arxivBuildMeta (fun p => p.2.title)]
      rw [List.pairwise_map]
      refine ((arxiv_retrieve_pairwise docs).1).imp ?_
      intro a b hr heq
      by_cases hu : (arxivBuildMeta a).title = "Unknown"
      · exact Or.inl hu
      · by_cases he : (arxivBuildMeta a).title = ""
        · exact Or.inr he
        · exfalso
          have hta : a.title.getD "Unknown" ≠ "Unknown" := hu
          have htae : a.title.getD "Unknown" ≠ "" := he
          cases hao : a.title with
          | none => rw [hao] at hta; simp at hta
          | some ta =>
            rw [hao] at hta htae
            simp only [Option.getD_some] at hta htae
            have heq2 : (arxivBuildMeta b).title = ta := by
              have : (arxivBuildMeta a).title = ta := by
                simp [arxivBuildMeta, hao]
              rw [← heq, this]
            cases hbo : b.title with
            | none =>
              rw [show (arxivBuildMeta b).title = b.title.getD "Unknown" from rfl,
                hbo] at heq2
              simp only [Option.getD_none] at heq2
              exact hta heq2.symm
            | some tb =>
              rw [show (arxivBuildMeta b).title = b.title.getD "Unknown" from rfl,
                hbo] at heq2
              simp only [Option.getD_some] at heq2
              have hka : aTitleKey a = ta := by simp [aTitleKey, hao]
              have hkb : aTitleKey b = tb := by simp [aTitleKey, hbo]
              have := hr (by rw [hka]; exact htae)
                (by rw [hkb, heq2]; exact htae)
              rw [hka, hkb, heq2] at this
              exact this rfl

/-- Witness for C5: the amended dedup statement instantiated on two concrete
titled documents sharing a title. -/
theorem C5_arxiv_dedup_amended_witness :
    ((arxiv_execute true [⟨some "T", none, none, none, "c1"⟩,
        ⟨some "T", none, none, none, "c2"⟩]).results.map (fun it => it.title)).Pairwise
      (fun a b => a = b → a = "Unknown" ∨ a = "") :=
  (C5_arxiv_dedup_amended true
    [⟨some "T", none, none, none, "c1"⟩, ⟨some "T", none, none, none, "c2"⟩]).1

/-- Counterexample to C5 as stated: two documents without any title are both
kept (distinct content prefixes) and both surface with the identical
*non-empty* placeholder title `"Unknown"`. -/
theorem C5_arxiv_dedup_counterexample :
    (arxiv_execute true [docUA, docUB]).results.map (fun it => it.title) =
      ["Unknown", "Unknown"] ∧
    ("Unknown" : String) ≠ "" ∧
    ¬ (((arxiv_execute true [docUA, docUB]).results.map (fun it => it.title)).Pairwise
        (fun a b => a = b → a = "")) := by
  refine ⟨rfl, by decide, ?_⟩
  intro hp
  rw [show ((arxiv_execute true [docUA, docUB]).results.map (fun it => it.title)) =
      ["Unknown", "Unknown"] from rfl] at hp
  rcases List.pairwise_cons.mp hp with ⟨hrel, -⟩
  exact absurd (hrel "Unknown" (List.mem_singleton.mpr rfl) rfl) (by decide)

/-! ### C8: results/metadata parallelism -/

lemma pinecone_retrieve_len {Score : Type} [LinearOrder Score]
    (hits : List (PDoc × Score)) (threshold : Score) (k : Nat) :
    (pinecone_retrieve hits threshold k).2.length ≤
      (pinecone_retrieve hits threshold k).1.length := by
  unfold pinecone_retrieve
  by_cases h0 : hits.isEmpty = true
  · rw [if_pos h0]; exact Nat.le_refl 0
  · rw [if_neg h0]
    by_cases h1 : (hits.filter (fun p => threshold ≤ p.2)).isEmpty = true
    · rw [if_pos h1]; exact Nat.le_refl 0
    · rw [if_neg h1]
      simp only [List.length_map, List.length_take]
      calc k ⊓ (uniquePapersGo (hits.filter (fun p => threshold ≤ p.2)) []).length
          ≤ (uniquePapersGo (hits.filter (fun p => threshold ≤ p.2)) []).length :=
            inf_le_right
        _ ≤ ([] : List (String × List (String × String) × Score)).length +
              (hits.filter (fun p => threshold ≤ p.2)).length :=
            uniquePapersGo_length _ _
        _ = (hits.filter (fun p => threshold ≤ p.2)).length := by simp

lemma scrapeLoop_len (fetch : String → Except ScrapeExn Scraped) :
    ∀ urls : List String,
      (scrapeLoop fetch urls).1.length ≤ (scrapeLoop fetch urls).2.length := by
  intro urls
  induction urls with
  | nil => simp [scrapeLoop]
  | cons u rest ih =>
    unfold scrapeLoop
    cases fetch u with
    | ok c => simpa using ih
    | error e =>
      simp only [List.length_cons]
      exact Nat.le_succ_of_le ih

lemma braveJsonGo_len (query : String) :
    ∀ (hits : List BraveHit) (i : Nat),
      (braveJsonGo query hits i).1.length = (braveJsonGo query hits i).2.length := by
  intro hits
  induction hits with
  | nil => intro i; rfl
  | cons h rest ih =>
    intro i
    simp only [braveJsonGo, List.length_cons]
    rw [ih (i + 1)]

lemma braveFallbackGo_len (query : String) :
    ∀ (entries : List String) (i : Nat),
      (braveFallbackGo query entries i).1.length =
        (braveFallbackGo query entries i).2.length := by
  intro entries
  induction entries with
  | nil => intro i; rfl
  | cons entry rest ih =>
    intro i
    by_cases hb : (pyTrim entry == "") = true
    · simp only [braveFallbackGo, hb, if_true]
      exact ih (i + 1)
    · simp only [braveFallbackGo, hb, Bool.false_eq_true, if_false, List.length_cons]
      rw [ih (i + 1)]

lemma brave_retrieve_len (query : String) (parsed : List BraveHit)
    (entries : List String) (k : Nat) :
    (brave_retrieve query parsed entries k).2.length ≤
      (brave_retrieve query parsed entries k).1.length := by
  unfold brave_retrieve
  by_cases hp : (!parsed.isEmpty) = true
  · rw [if_pos hp]
    exact le_of_eq (braveJsonGo_len query (parsed.take k) 0).symm
  · rw [if_neg hp]
    exact le_of_eq (braveFallbackGo_len query (entries.take k) 0).symm

/-- Claim C8 (amended): for the academic, web and vector search tools,
`metadata` is parallel to `results` (equal lengths; the displayed fields of
the i-th item are drawn from the i-th metadata record — witnessed here by the
title columns coinciding), and a failed invocation carries empty results and
metadata. The content-extraction tool is the exception the source forces: its
metadata gets one record per attempted URL including failures, so `metadata`
can be strictly longer than `results`, and a totally-failed invocation has
empty `results` but retains its per-URL failure records in `metadata`. -/
theorem C8_metadata_parallel_amended :
    (∀ (available : Bool) (docs : List ADoc),
      (arxiv_execute available docs).results.map (fun it => it.title) =
        (arxiv_execute available docs).metadata.map (fun m => m.title) ∧
      ((arxiv_execute available docs).success = false →
        (arxiv_execute available docs).results = [] ∧
        (arxiv_execute available docs).metadata = [])) ∧
    (∀ (available : Bool) (query : String) (parsed : List BraveHit)
        (entries : List String) (k : Nat),
      (brave_execute available query parsed entries k).results.map (fun it => it.title) =
        (brave_execute available query parsed entries k).metadata.map (fun m => m.title) ∧
      ((brave_execute available query parsed entries k).success = false →
        (brave_execute available query parsed entries k).results = [] ∧
        (brave_execute available query parsed entries k).metadata = [])) ∧
    (∀ (Score : Type) [LinearOrder Score] [Zero Score]
        (available : Bool) (hits : List (PDoc × Score)) (threshold : Score) (k : Nat),
      (pinecone_execute available hits threshold k).results.map (fun it => it.title) =
        (pinecone_execute available hits threshold k).metadata.map (fun m => m.title) ∧
      ((pinecone_execute available hits threshold k).success = false →
        (pinecone_execute available hits threshold k).results = [] ∧
        (pinecone_execute available hits threshold k).metadata = [])) ∧
    (∀ (available : Bool) (fetch : String → Except ScrapeExn Scraped) (q : String),
      (webscraper_execute available fetch q).results.length ≤
        (webscraper_execute available fetch q).metadata.length ∧
      ((webscraper_execute available fetch q).success = false →
        (webscraper_execute available fetch q).results = [])) := by
  refine ⟨?_, ?_, ?_, ?_⟩
  · intro available docs
    unfold arxiv_execute
    cases available with
    | false => exact ⟨rfl, fun _ => ⟨rfl, rfl⟩⟩
    | true =>
      simp only [Bool.not_true, Bool.false_eq_true, if_false]
      by_cases hemp : (arxiv_retrieve docs).1.isEmpty = true
      · rw [if_pos hemp]; exact ⟨rfl, fun _ => ⟨rfl, rfl⟩⟩
      · rw [if_neg hemp]
        refine ⟨?_, fun hf => absurd (show (true : Bool) = false from hf) (by decide)⟩
        rw [List.map_map]
        have hlen : (arxiv_retrieve docs).2.length ≤ (arxiv_retrieve docs).1.length := by
          rw [arxiv_retrieve_snd docs, List.length_map]
        exact zip_map_snd (fun m => m.title) (arxiv_retrieve docs).2
          (arxiv_retrieve docs).1 hlen
  · intro available query parsed entries k
    unfold brave_execute
    cases available with
    | false => exact ⟨rfl, fun _ => ⟨rfl, rfl⟩⟩
    | true =>
      simp only [Bool.not_true, Bool.false_eq_true, if_false]
      by_cases hemp : (brave_retrieve query parsed entries k).1.isEmpty = true
      · rw [if_pos hemp]; exact ⟨rfl, fun _ => ⟨rfl, rfl⟩⟩
      · rw [if_neg hemp]
        refine ⟨?_, fun hf => absurd (show (true : Bool) = false from hf) (by decide)⟩
        rw [List.map_map]
        exact zip_map_snd (fun m => m.title) (brave_retrieve query parsed entries k).2
          (brave_retrieve query parsed entries k).1
          (brave_retrieve_len query parsed entries k)
  · intro Score _ _ available hits threshold k
    unfold pinecone_execute
    cases available with
    | false => exact ⟨rfl, fun _ => ⟨rfl, rfl⟩⟩
    | true =>
      simp only [Bool.not_true, Bool.false_eq_true, if_false]
      by_cases hemp : (pinecone_retrieve hits threshold k).1.isEmpty = true
      · rw [if_pos hemp]; exact ⟨rfl, fun _ => ⟨rfl, rfl⟩⟩
      · rw [if_neg hemp]
        refine ⟨?_, fun hf => absurd (show (true : Bool) = false from hf) (by decide)⟩
        rw [List.map_map]
        exact zip_map_snd (fun m => m.title) (pinecone_retrieve hits threshold k).2
          (pinecone_retrieve hits threshold k).1
          (pinecone_retrieve_len hits threshold k)
  · intro available fetch q
    unfold webscraper_execute
    cases available with
    | false => exact ⟨Nat.le_refl 0, fun _ => rfl⟩
    | true =>
      simp only [Bool.not_true, Bool.false_eq_true, if_false]
      by_cases hemp : (parse_urls q).isEmpty = true
      · rw [if_pos hemp]; exact ⟨Nat.le_refl 0, fun _ => rfl⟩
      · rw [if_neg hemp]
        refine ⟨scrapeLoop_len fetch _, ?_⟩
        intro hf
        simp only at hf
        have hz : ¬ (scrapeLoop fetch ((parse_urls q).take 3)).1.length > 0 :=
          of_decide_eq_false hf
        have : (scrapeLoop fetch ((parse_urls q).take 3)).1.length = 0 := by omega
        exact List.length_eq_zero.mp this

/-- Witness for C8: failed academic and web searches carry empty results and
metadata, a web search with one parsed hit has title-parallel metadata, and a
URL-free scrape query yields empty results. -/
theorem C8_metadata_parallel_amended_witness :
    ((arxiv_execute true []).results = [] ∧ (arxiv_execute true []).metadata = []) ∧
    ((brave_execute true "q" [] [] 5).results = [] ∧
      (brave_execute true "q" [] [] 5).metadata = []) ∧
    ((brave_execute true "q" [⟨some "T", some "http://x.com", none, some "s"⟩] [] 5).results.map
        (fun it => it.title) =
      (brave_execute true "q" [⟨some "T", some "http://x.com", none, some "s"⟩] [] 5).metadata.map
        (fun m => m.title)) ∧
    (webscraper_execute true demoFetch "no urls at all").results = [] :=
  ⟨(C8_metadata_parallel_amended.1 true []).2 rfl,
   (C8_metadata_parallel_amended.2.1 true "q" [] [] 5).2 rfl,
   (C8_metadata_parallel_amended.2.1 true "q"
     [⟨some "T", some "http://x.com", none, some "s"⟩] [] 5).1,
   (C8_metadata_parallel_amended.2.2.2 true demoFetch "no urls at all").2 rfl⟩

/-- Counterexample to C8 as stated: for the content-extraction tool, one
successful and one failed URL yield one result item but two metadata records
(sequences not parallel), and an all-failed invocation has empty results but
non-empty metadata. -/
theorem C8_metadata_parallel_counterexample :
    (webscraper_execute true demoFetch "http://aa.com http://bb.com").success = true ∧
    (webscraper_execute true demoFetch "http://aa.com http://bb.com").results.length = 1 ∧
    (webscraper_execute true demoFetch "http://aa.com http://bb.com").metadata.length = 2 ∧
    (webscraper_execute true demoFetch "http://bb.com").success = false ∧
    (webscraper_execute true demoFetch "http://bb.com").results = [] ∧
    (webscraper_execute true demoFetch "http://bb.com").metadata ≠ [] :=
  ⟨rfl, rfl, rfl, rfl, rfl, by decide⟩

/-! ### C6 and C10: multi-tool parsing and positional pairing -/

lemma parseMultiGo_two_lines (l1 l2 t1 t2 : String) (restNames : List String)
    (h1 : startsWithB l1 "MULTI_TOOL_USE:" = true)
    (h2 : (splitChar (pyTrim (afterColon l1)) ',').map pyTrim = t1 :: t2 :: restNames)
    (h3 : startsWithB l2 "MULTI_TOOL_USE:" = false)
    (h4 : startsWithB l2 "QUERY1:" = true) :
    parseMultiGo [l1, l2] none [] none =
      (some (t1 :: t2 :: restNames), [(t1, pyTrim (afterColon l2))], none) := by
  simp only [parseMultiGo, h1, if_true, h2, h3, Bool.false_eq_true, if_false, h4,
    List.isEmpty_cons, Bool.not_false, ite_true, List.headD_cons, dictInsert,
    dictHas, List.any_nil, Bool.false_eq_true, if_false, List.nil_append]

lemma dictGetD_single (k v : String) : dictGetD [(k, v)] k "" = v := by
  simp [dictGetD, dictGet?]

/-- Claim C6 (amended): given a multi-tool directive whose `MULTI_TOOL_USE`
line names two distinct tools, the first of which is available, and which
*precedes* its single `QUERY1` line (no `QUERY2` line), execution invokes
exactly one tool — the first-listed one, paired with the `QUERY1` query — and
skips the unpaired tool without raising and without adding an error Tool
Result for it. -/
theorem C6_multi_tool_single_query (mgr : ToolManager) (st : AgentState)
    (l1 l2 t1 t2 q : String)
    (h1 : startsWithB l1 "MULTI_TOOL_USE:" = true)
    (h2 : (splitChar (pyTrim (afterColon l1)) ',').map pyTrim = [t1, t2])
    (h3 : startsWithB l2 "MULTI_TOOL_USE:" = false)
    (h4 : startsWithB l2 "QUERY1:" = true)
    (h5 : pyTrim (afterColon l2) = q)
    (h6 : t1 ≠ t2)
    (h7 : is_tool_available mgr t1 = true) :
    (parse_multi_tool_decision [l1, l2]).tools = [t1, t2] ∧
    (parse_multi_tool_decision [l1, l2]).queries = [(t1, q)] ∧
    (execute_tools mgr st (parse_multi_tool_decision [l1, l2])).2 =
      [(execute_single_tool mgr st t1 q).2] := by
  have hgo := parseMultiGo_two_lines l1 l2 t1 t2 [] h1 h2 h3 h4
  rw [h5] at hgo
  have hd : parse_multi_tool_decision [l1, l2] =
      { use_tools := true, multi_tool := true, tools := [t1, t2],
        queries := [(t1, q)], tool_name := none, query := none,
        reasoning := "Multi-tool strategy selected" } := by
    unfold parse_multi_tool_decision
    rw [hgo]
    rfl
  refine ⟨by rw [hd], by rw [hd], ?_⟩
  rw [hd]
  show (executeMultiGo mgr [(t1, q)] [t1, t2] st).2 = _
  have hbeq1 : (t1 == t1) = true := beq_self_eq_true t1
  have hbeq2 : (t1 == t2) = false := beq_eq_false_iff_ne.mpr h6
  have hc1 : (dictHas [(t1, q)] t1 && is_tool_available mgr t1) = true := by
    simp [dictHas, hbeq1, h7]
  have hc2 : (dictHas [(t1, q)] t2 && is_tool_available mgr t2) = false := by
    simp [dictHas, hbeq2]
  simp only [executeMultiGo, hc1, if_true, hc2, Bool.false_eq_true, if_false,
    dictGetD_single]

/-- Witness for C6: a concrete well-ordered two-tool directive with one query
line against the two-tool registry. -/
theorem C6_multi_tool_single_query_witness :
    (parse_multi_tool_decision ["MULTI_TOOL_USE: a, b", "QUERY1: find papers"]).queries =
      [("a", "find papers")] ∧
    (execute_tools demoMgr ⟨[]⟩
        (parse_multi_tool_decision ["MULTI_TOOL_USE: a, b", "QUERY1: find papers"])).2 =
      [(execute_single_tool demoMgr ⟨[]⟩ "a" "find papers").2] :=
  ⟨(C6_multi_tool_single_query demoMgr ⟨[]⟩ "MULTI_TOOL_USE: a, b"
      "QUERY1: find papers" "a" "b" "find papers" rfl rfl rfl rfl rfl
      (by decide) rfl).2.1,
   (C6_multi_tool_single_query demoMgr ⟨[]⟩ "MULTI_TOOL_USE: a, b"
      "QUERY1: find papers" "a" "b" "find papers" rfl rfl rfl rfl rfl
      (by decide) rfl).2.2⟩

/-- Counterexample to C6 as stated: a directive that names two available tools
and contains exactly one `QUERY1` line, but with the `QUERY1` line *before*
the `MULTI_TOOL_USE` line; the parser drops the query (`tools` is still
`None` at that point), so execution invokes zero tools, not exactly one. -/
theorem C6_multi_tool_single_query_counterexample :
    (parse_tool_decision "QUERY1: x\nMULTI_TOOL_USE: a, b").multi_tool = true ∧
    (parse_tool_decision "QUERY1: x\nMULTI_TOOL_USE: a, b").tools = ["a", "b"] ∧
    is_tool_available demoMgr "a" = true ∧
    is_tool_available demoMgr "b" = true ∧
    (execute_tools demoMgr ⟨[]⟩
        (parse_tool_decision "QUERY1: x\nMULTI_TOOL_USE: a, b")).2 = [] :=
  ⟨rfl, rfl, rfl, rfl, rfl⟩

lemma executeMultiGo_only (mgr : ToolManager) (t1 q : String) :
    ∀ (ts : List String) (st : AgentState),
      ∀ r ∈ (executeMultiGo mgr [(t1, q)] ts st).2, r = execute_tool mgr t1 q := by
  intro ts
  induction ts with
  | nil => intro st r hr; simp [executeMultiGo] at hr
  | cons t rest ih =>
    intro st r hr
    by_cases hc : (dictHas [(t1, q)] t && is_tool_available mgr t) = true
    · simp only [executeMultiGo, hc, if_true] at hr
      rcases List.mem_cons.mp hr with heq | hmem
      · have ht : (t1 == t) = true := by
          have := (Bool.and_eq_true _ _ ▸ hc).1
          simpa [dictHas] using this
        have ht' : t1 = t := eq_of_beq ht
        rw [heq]
        show (execute_single_tool mgr st t (dictGetD [(t1, q)] t "")).2 = _
        rw [← ht', dictGetD_single]
        rfl
      · exact ih _ r hmem
    · simp only [executeMultiGo, hc, Bool.false_eq_true, if_false] at hr
      exact ih st r hr

/-- Claim C10 (amended): the parser pairs only `QUERY1`/`QUERY2` positionally
with the first and second tool names, so for a directive with a single
`QUERY1` line (after the marker line) only the first-listed name ever carries
a query: every executed invocation is an invocation of the first-listed tool
with the `QUERY1` query. In particular a third-or-later position whose name
differs from the first name is always skipped — but a later position that
*repeats* the first name is executed again (see the counterexample). -/
theorem C10_positional_pairing (mgr : ToolManager) (st : AgentState)
    (l1 l2 t1 t2 : String) (restNames : List String) (q : String)
    (h1 : startsWithB l1 "MULTI_TOOL_USE:" = true)
    (h2 : (splitChar (pyTrim (afterColon l1)) ',').map pyTrim = t1 :: t2 :: restNames)
    (h3 : startsWithB l2 "MULTI_TOOL_USE:" = false)
    (h4 : startsWithB l2 "QUERY1:" = true)
    (h5 : pyTrim (afterColon l2) = q) :
    (parse_multi_tool_decision [l1, l2]).queries = [(t1, q)] ∧
    ∀ r ∈ (execute_tools mgr st (parse_multi_tool_decision [l1, l2])).2,
      r = execute_tool mgr t1 q := by
  have hgo := parseMultiGo_two_lines l1 l2 t1 t2 restNames h1 h2 h3 h4
  rw [h5] at hgo
  have hd : parse_multi_tool_decision [l1, l2] =
      { use_tools := true, multi_tool := true, tools := t1 :: t2 :: restNames,
        queries := [(t1, q)], tool_name := none, query := none,
        reasoning := "Multi-tool strategy selected" } := by
    unfold parse_multi_tool_decision
    rw [hgo]
    rfl
  refine ⟨by rw [hd], ?_⟩
  rw [hd]
  intro r hr
  exact executeMultiGo_only mgr t1 q (t1 :: t2 :: restNames) st r hr

/-- Witness for C10: a three-tool directive with one query line; the lone
executed invocation belongs to the first tool. -/
theorem C10_positional_pairing_witness :
    (parse_multi_tool_decision ["MULTI_TOOL_USE: a, b, c", "QUERY1: x"]).queries =
      [("a", "x")] ∧
    ((execute_tools demoMgr ⟨[]⟩
        (parse_multi_tool_decision ["MULTI_TOOL_USE: a, b, c", "QUERY1: x"])).2.getLast?.getD
          (execute_tool demoMgr "a" "x") = execute_tool demoMgr "a" "x") :=
  ⟨(C10_positional_pairing demoMgr ⟨[]⟩ "MULTI_TOOL_USE: a, b, c" "QUERY1: x"
      "a" "b" ["c"] "x" rfl rfl rfl rfl rfl).1,
   (C10_positional_pairing demoMgr ⟨[]⟩ "MULTI_TOOL_USE: a, b, c" "QUERY1: x"
      "a" "b" ["c"] "x" rfl rfl rfl rfl rfl).2
     ((execute_tools demoMgr ⟨[]⟩
        (parse_multi_tool_decision ["MULTI_TOOL_USE: a, b, c", "QUERY1: x"])).2.getLast?.getD
          (execute_tool demoMgr "a" "x")) (by decide)⟩

/-- Counterexample to C10 as stated: when a later position repeats an earlier
name (`MULTI_TOOL_USE: a, b, a`), the third named tool *is* executed (twice
`a` runs), so "any third or later named tool ... is always skipped at
execution" fails; only one first-two position carries a query, yet two
invocations happen. -/
theorem C10_positional_pairing_counterexample :
    (parse_tool_decision "MULTI_TOOL_USE: a, b, a\nQUERY1: x").tools = ["a", "b", "a"] ∧
    (execute_tools demoMgr ⟨[]⟩
        (parse_tool_decision "MULTI_TOOL_USE: a, b, a\nQUERY1: x")).2.length = 2 ∧
    ¬ ((execute_tools demoMgr ⟨[]⟩
        (parse_tool_decision "MULTI_TOOL_USE: a, b, a\nQUERY1: x")).2.length ≤ 1) :=
  ⟨rfl, rfl, by decide⟩

/-! ### C9: the Progress Step log -/

lemma execute_single_tool_steps (mgr : ToolManager) (st : AgentState) (tn q : String) :
    ∃ tl, (execute_single_tool mgr st tn q).1.steps = st.steps ++ tl := by
  simp only [execute_single_tool]
  split
  · split
    · exact ⟨_, by simp only [addStep]; rw [List.append_assoc]⟩
    · exact ⟨_, by simp only [addStep]; rw [List.append_assoc]⟩
  · exact ⟨_, by simp only [addStep]; rw [List.append_assoc]⟩

lemma executeMultiGo_steps (mgr : ToolManager) (queries : List (String × String)) :
    ∀ (ts : List String) (st : AgentState),
      ∃ tl, (executeMultiGo mgr queries ts st).1.steps = st.steps ++ tl := by
  intro ts
  induction ts with
  | nil => intro st; exact ⟨[], by simp [executeMultiGo]⟩
  | cons t rest ih =>
    intro st
    by_cases hc : (dictHas queries t && is_tool_available mgr t) = true
    · obtain ⟨tl1, hl1⟩ := execute_single_tool_steps mgr st t (dictGetD queries t "")
      obtain ⟨tl2, hl2⟩ :=
        ih (execute_single_tool mgr st t (dictGetD queries t "")).1
      refine ⟨tl1 ++ tl2, ?_⟩
      simp only [executeMultiGo, hc, if_true]
      rw [hl2, hl1, List.append_assoc]
    · obtain ⟨tl, hl⟩ := ih st
      exact ⟨tl, by simp only [executeMultiGo, hc, Bool.false_eq_true, if_false]; exact hl⟩

lemma execute_tools_steps (mgr : ToolManager) (st : AgentState) (d : ToolDecision) :
    ∃ tl, (execute_tools mgr st d).1.steps = st.steps ++ tl := by
  unfold execute_tools
  split
  · exact executeMultiGo_steps mgr d.queries d.tools st
  · split
    · split
      · exact execute_single_tool_steps mgr st _ _
      · exact ⟨[], by simp⟩
    · exact ⟨[], by simp⟩

lemma research_steps_shape (A : Agent) (q : String) (st : AgentState) :
    ∃ mid, (research A st q).2.step_messages =
      ⟨"checking", "🚀 Starting intelligent research process..."⟩ ::
        (mid ++ [⟨"completed", "✅ Response synthesized successfully!"⟩]) := by
  simp only [research, synthesize_response, decide_tool_use]
  by_cases h : (parse_tool_decision (A.llmDecide q)).use_tools = true
  · rw [if_pos h]
    obtain ⟨tl, htl⟩ := execute_tools_steps A.mgr
      (addStep
        (addStep (addStep (clearSteps st) "checking"
          "🚀 Starting intelligent research process...") "searching"
          "🤔 Analyzing question and determining tool strategy...")
        "checking"
        ("💭 Strategy: " ++ (parse_tool_decision (A.llmDecide q)).reasoning))
      (parse_tool_decision (A.llmDecide q))
    refine ⟨(⟨"searching", "🤔 Analyzing question and determining tool strategy..."⟩ ::
        ⟨"checking", "💭 Strategy: " ++
          (parse_tool_decision (A.llmDecide q)).reasoning⟩ :: tl) ++
        [⟨"synthesizing", "🧠 Synthesizing comprehensive response from all sources..."⟩], ?_⟩
    show ((execute_tools A.mgr _ _).1.steps ++ _) ++ _ = _
    rw [htl]
    simp [addStep, clearSteps, List.append_assoc]
  · rw [if_neg h]
    refine ⟨(⟨"searching", "🤔 Analyzing question and determining tool strategy..."⟩ ::
        ⟨"completed", "✅ Using existing knowledge: " ++
          (parse_tool_decision (A.llmDecide q)).reasoning⟩ :: []) ++
        [⟨"synthesizing", "🧠 Synthesizing comprehensive response from all sources..."⟩], ?_⟩
    simp [addStep, clearSteps, List.append_assoc]

/-- Claim C9: the step log is cleared at the start of `research` before any
step is appended (the outcome is independent of any pre-existing log, and the
returned log starts with the first step of the request itself); the pipeline only ever
appends (`add_step_message` appends, and the execution coordinator extends the
log of the state it is given); and since synthesis always runs, the returned
`step_messages` ends with the `completed` step of the synthesis engine. -/
theorem C9_step_log_contract (A : Agent) (q : String) :
    (∀ st st' : AgentState, research A st q = research A st' q) ∧
    (∀ (st : AgentState) (s m : String),
      (addStep st s m).steps = st.steps ++ [⟨s, m⟩]) ∧
    (∀ (mgr : ToolManager) (st : AgentState) (d : ToolDecision),
      ∃ tl, (execute_tools mgr st d).1.steps = st.steps ++ tl) ∧
    (∀ st : AgentState,
      (research A st q).2.step_messages.head? =
        some ⟨"checking", "🚀 Starting intelligent research process..."⟩ ∧
      (research A st q).2.step_messages.getLast? =
        some ⟨"completed", "✅ Response synthesized successfully!"⟩) := by
  refine ⟨fun st st' => rfl, fun st s m => rfl, execute_tools_steps, ?_⟩
  intro st
  obtain ⟨mid, hmid⟩ := research_steps_shape A q st
  rw [hmid]
  constructor
  · rfl
  · rw [show (⟨"checking", "🚀 Starting intelligent research process..."⟩ :
        Step) :: (mid ++ [⟨"completed", "✅ Response synthesized successfully!"⟩]) =
      (⟨"checking", "🚀 Starting intelligent research process..."⟩ :: mid) ++
        [⟨"completed", "✅ Response synthesized successfully!"⟩] from rfl]
    exact List.getLast?_concat _

end Nexus
